import Mathlib

/-!
Verification of the library reconciliation engine of `src/libraryutils.cpp`
(the unplayer music indexer) against its natural-language specification.

The embedding models Qt strings as `List Char` (`Str`), byte arrays as
`List Nat`, and the SQLite `tracks` table as a `List Row`.  External
collaborators (the MD5 hash, the content-type sniffer used for embedded art,
and the Qt MIME classifier) are parameters of the model, per the spec's §6
which declares them external capabilities.  Filesystem state is an explicit
`Fs` value; database statements are modelled as pure transformations of the
row list, executed in the source's order.
-/

/-- Qt `QString` is modelled as a list of characters. -/
abbrev Str := List Char

/-- Convenience conversion from a Lean string literal to the `Str` model. -/
def str (s : String) : Str := s.data

/-- Model of `QString::startsWith`: `strStartsWith s p` is true when `p` is a
prefix of `s` (first argument is the receiver, as in `s.startsWith(p)`). -/
def strStartsWith : Str → Str → Bool
  | _, [] => true
  | [], _ :: _ => false
  | c :: s, d :: p => c = d && strStartsWith s p

/-- Model of `QString::endsWith`: true when `p` is a suffix of `s`. -/
def strEndsWith (s p : Str) : Bool := strStartsWith s.reverse p.reverse

/-- First index at which `pat` occurs in a string, as in `QString::indexOf`
(returns `none` for "not found", i.e. Qt's `-1`). -/
def firstSubIdx (pat : Str) : Str → Option Nat
  | [] => if strStartsWith [] pat then some 0 else none
  | c :: rest =>
    if strStartsWith (c :: rest) pat then some 0
    else (firstSubIdx pat rest).map (· + 1)

/-- Model of `QString::contains`. -/
def strContains (s pat : Str) : Bool := (firstSubIdx pat s).isSome

/-- Association-list lookup (model of `std::unordered_map::find`). -/
def lookupA (m : List (Str × α)) (k : Str) : Option α :=
  match m with
  | [] => none
  | (k', v) :: rest => if k' = k then some v else lookupA rest k

/-- Association-list lookup with an `Int` key. -/
def lookupI (m : List (Int × α)) (k : Int) : Option α :=
  match m with
  | [] => none
  | (k', v) :: rest => if k' = k then some v else lookupI rest k

/-- Lookup with default, modelling `std::unordered_map::operator[]` reads on a
key that was always inserted beforehand (the default is never observed by the
source on its real control paths). -/
def lookupD (m : List (Int × α)) (k : Int) (dflt : α) : α :=
  (lookupI m k).getD dflt

/-- Insert-if-absent, modelling `std::unordered_map::insert` (which keeps the
existing entry when the key is already present). -/
def insertA (m : List (Str × α)) (k : Str) (v : α) : List (Str × α) :=
  match lookupA m k with
  | some _ => m
  | none => m ++ [(k, v)]

/-- Insert-if-absent with an `Int` key. -/
def insertI (m : List (Int × α)) (k : Int) (v : α) : List (Int × α) :=
  match lookupI m k with
  | some _ => m
  | none => m ++ [(k, v)]

/-- Structured track metadata returned by the external tag reader
(`tagutils::Info`). -/
structure TagInfo where
  title : Str
  artists : List Str
  albums : List Str
  genres : List Str
  year : Int
  trackNumber : Int
  discNumber : Str
  duration : Int
  mediaArtData : List Nat
  deriving Repr, DecidableEq

/-- One persisted row of the `tracks` table. -/
structure Row where
  id : Int
  modificationTime : Int
  year : Int
  trackNumber : Int
  duration : Int
  filePath : Str
  title : Str
  artist : Str
  album : Str
  discNumber : Str
  genre : Str
  mediaArt : Str
  deriving Repr, DecidableEq

/-- Model of the anonymous-namespace helper `emptyIfNull`.  The model has no
distinct null string, so collapsing null to empty is the identity. -/
def emptyIfNull (s : Str) : Str := s

/-- Model of the `sizeOrOne` lambda inside `updateTrackInDatabase`. -/
def sizeOrOne (strings : List Str) : Nat :=
  if strings.isEmpty then 1 else strings.length

/-- Model of the `forEachOrOnce` lambda inside `updateTrackInDatabase`: run the
body once with a null (empty) string when the list is empty, otherwise once per
element; the rows produced by the body are concatenated in execution order. -/
def forEachOrOnce (strings : List Str) (exec : Str → List Row) : List Row :=
  if strings.isEmpty then exec [] else strings.flatMap exec

/-- Rows bound and inserted by the single `INSERT INTO tracks ... VALUES ...`
statement of `updateTrackInDatabase`: the nested `forEachOrOnce` loops over
artists, albums and genres. -/
def trackRows (id : Int) (modTime : Int) (filePath : Str) (info : TagInfo)
    (mediaArt : Str) : List Row :=
  forEachOrOnce info.artists fun artist =>
    forEachOrOnce info.albums fun album =>
      forEachOrOnce info.genres fun genre =>
        [{ id := id
           modificationTime := modTime
           year := info.year
           trackNumber := info.trackNumber
           duration := info.duration
           filePath := filePath
           title := info.title
           artist := emptyIfNull artist
           album := emptyIfNull album
           discNumber := emptyIfNull info.discNumber
           genre := emptyIfNull genre
           mediaArt := emptyIfNull mediaArt }]

/-- Model of `updateTrackInDatabase` (statements assumed to succeed): when
`inDb` holds, first `DELETE FROM tracks WHERE id = ?`, then execute the
cartesian `INSERT`, which appends its rows to the table. -/
def updateTrackInDatabase (db : List Row) (inDb : Bool) (id : Int)
    (modTime : Int) (filePath : Str) (info : TagInfo) (mediaArt : Str) :
    List Row :=
  let db := if inDb then db.filter (fun r => r.id ≠ id) else db
  db ++ trackRows id modTime filePath info mediaArt

/-- Model of `updateTrackInDatabase` with per-statement failure: `deleteOk`
states whether the `DELETE` statement succeeds, `insertOk` whether the single
multi-row `INSERT` succeeds.  A failed statement is logged and has no effect on
the table; the function always returns (the scan continues). -/
def updateTrackInDatabaseF (deleteOk insertOk : Bool) (db : List Row)
    (inDb : Bool) (id : Int) (modTime : Int) (filePath : Str) (info : TagInfo)
    (mediaArt : Str) : List Row :=
  let db := if inDb && deleteOk then db.filter (fun r => r.id ≠ id) else db
  if insertOk then db ++ trackRows id modTime filePath info mediaArt else db

/-- Spec-side list defaulting: "any empty list is replaced by a single
empty-string entry". -/
def specDefaultList (l : List Str) : List Str := if l.isEmpty then [[]] else l

/-- Spec-side statement of the insertion: one row per element of the cartesian
product of (artists × albums × genres) after defaulting. -/
def specCartesianRows (id : Int) (modTime : Int) (filePath : Str)
    (info : TagInfo) (mediaArt : Str) : List Row :=
  (specDefaultList info.artists).flatMap fun artist =>
    (specDefaultList info.albums).flatMap fun album =>
      (specDefaultList info.genres).map fun genre =>
        { id := id
          modificationTime := modTime
          year := info.year
          trackNumber := info.trackNumber
          duration := info.duration
          filePath := filePath
          title := info.title
          artist := artist
          album := album
          discNumber := info.discNumber
          genre := genre
          mediaArt := mediaArt }

/-- External capabilities and fixed paths used by the art resolver: the MD5
hex digest (`QCryptographicHash`), the suffix chosen by
`QMimeDatabase::mimeTypeForData(...).preferredSuffix()`, and the media-art
cache directory `mMediaArtDirectory`. -/
structure Env where
  md5Hex : List Nat → Str
  sniffSuffix : List Nat → Str
  mediaArtDirectory : Str

/-- One filesystem entry as observed through `QFileInfo` / `QDirIterator`:
its absolute path, containing directory (`fileInfo.path()`), extension
(`fileInfo.suffix()`), last-modified time in epoch millis, directory and
readability flags, the content-sniffed MIME type name
(`QMimeDatabase::mimeTypeForFile(path, MatchContent)`), and the tag reader's
result for the file (`tagutils::getTrackInfo`). -/
structure FsEntry where
  path : Str
  dir : Str
  suffix : Str
  modTime : Int
  isDir : Bool
  readable : Bool
  mime : Str
  tags : TagInfo
  deriving Repr, DecidableEq

/-- Filesystem model: the entries yielded by recursive iteration, the
per-directory listing of readable plain files (as `QDir::entryList` returns
them, sorted by name), and the set of directories containing a `.nomedia`
marker file. -/
structure Fs where
  entries : List FsEntry
  dirEntries : List (Str × List Str)
  nomediaDirs : List Str
  deriving Repr

/-- Readable file names of a directory, as `QDir::entryList(Files|Readable)`. -/
def dirEntriesOf (fs : Fs) (d : Str) : List Str := (lookupA fs.dirEntries d).getD []

/-- Case-insensitive stem test of the directory-art regular expression:
`albumart.*`, `cover`, `folder` or `front`. -/
def mediaArtStemOk (stem : Str) : Bool :=
  stem = str "cover" || stem = str "folder" || stem = str "front" ||
    strStartsWith stem (str "albumart")

/-- Match of a directory entry name against the media-art pattern
`^(albumart.*|cover|folder|front)\.(jpeg|jpg|png)$` (case-insensitive). -/
def matchesMediaArtName (name : Str) : Bool :=
  let lower := name.map Char.toLower
  if strEndsWith lower (str ".jpeg") then mediaArtStemOk (lower.take (lower.length - 5))
  else if strEndsWith lower (str ".jpg") then mediaArtStemOk (lower.take (lower.length - 4))
  else if strEndsWith lower (str ".png") then mediaArtStemOk (lower.take (lower.length - 4))
  else false

/-- Model of `LibraryUtils::findMediaArtForDirectory`: memoized scan of a
directory for the first name matching the media-art pattern; the empty result
is cached as well (negative caching).  Returns the resolved path (empty when
none) together with the updated cache. -/
def findMediaArtForDirectory (fs : Fs) (mediaArtHash : List (Str × Str))
    (directoryPath : Str) : Str × List (Str × Str) :=
  match lookupA mediaArtHash directoryPath with
  | some v => (v, mediaArtHash)
  | none =>
    match (dirEntriesOf fs directoryPath).filter matchesMediaArtName with
    | [] => ([], insertA mediaArtHash directoryPath [])
    | name :: _ =>
      let mediaArt := directoryPath ++ str "/" ++ name
      (mediaArt, insertA mediaArtHash directoryPath mediaArt)

/-- Scan-scoped artwork state: the hash-to-path map of embedded-art cache
files (`embeddedMediaArtFiles`), the files currently present in the media-art
directory, and the files written during this scan (for observing duplicate
writes). -/
structure ArtState where
  embeddedMediaArtFiles : List (Str × Str)
  artFiles : List Str
  writes : List Str
  deriving Repr, DecidableEq

/-- Full path of an embedded-art cache file as built by the source's format
string `"%1/%2-embedded.%3"`. -/
def embeddedArtPath (mediaArtDirectory md5 suffix : Str) : Str :=
  mediaArtDirectory ++ str "/" ++ md5 ++ str "-embedded." ++ suffix

/-- Model of `LibraryUtils::saveEmbeddedMediaArt`: hash the bytes; reuse the
cached file for that hash when one is known; otherwise determine a suffix from
the sniffed content type (no artwork when it cannot be determined), write the
bytes to `<md5>-embedded.<suffix>` in the art directory and record the
mapping.  The file write is assumed to succeed. -/
def saveEmbeddedMediaArt (env : Env) (data : List Nat) (s : ArtState) :
    Str × ArtState :=
  let md5 := env.md5Hex data
  match lookupA s.embeddedMediaArtFiles md5 with
  | some p => (p, s)
  | none =>
    let suffix := env.sniffSuffix data
    if suffix.isEmpty then ([], s)
    else
      let filePath := embeddedArtPath env.mediaArtDirectory md5 suffix
      (filePath,
       { embeddedMediaArtFiles := insertA s.embeddedMediaArtFiles md5 filePath
         artFiles := if s.artFiles.contains filePath then s.artFiles
                     else s.artFiles ++ [filePath]
         writes := s.writes ++ [filePath] })

/-- Model of `LibraryUtils::getTrackMediaArt`: art-source selection policy.
If directory art is preferred, look it up first and fall back to non-empty
embedded bytes; otherwise use embedded bytes when present and directory art
when they are empty.  Threads the directory cache and artwork state. -/
def getTrackMediaArt (env : Env) (fs : Fs) (embeddedMediaArtData : List Nat)
    (fileDir : Str) (mediaArtDirectories : List (Str × Str))
    (preferDirectoriesMediaArt : Bool) (a : ArtState) :
    Str × List (Str × Str) × ArtState :=
  if preferDirectoriesMediaArt then
    let (mediaArt, cache) := findMediaArtForDirectory fs mediaArtDirectories fileDir
    if mediaArt.isEmpty then
      if !embeddedMediaArtData.isEmpty then
        let (mediaArt, a) := saveEmbeddedMediaArt env embeddedMediaArtData a
        (mediaArt, cache, a)
      else (mediaArt, cache, a)
    else (mediaArt, cache, a)
  else
    if embeddedMediaArtData.isEmpty then
      let (mediaArt, cache) := findMediaArtForDirectory fs mediaArtDirectories fileDir
      (mediaArt, cache, a)
    else
      let (mediaArt, a) := saveEmbeddedMediaArt env embeddedMediaArtData a
      (mediaArt, mediaArtDirectories, a)

/-- File name of a path (`QFileInfo::fileName`): the part after the last
slash. -/
def fileNameOf (p : Str) : Str := (p.reverse.takeWhile (· ≠ '/')).reverse

/-- Base name of a file name (`QFileInfo::baseName`): the part before the
first dot. -/
def baseNameOf (n : Str) : Str := n.takeWhile (· ≠ '.')

/-- Key under which a cache file is indexed at scan start: the base name cut
at the first occurrence of `"-embedded"` (`baseName.left(index)`); a missing
occurrence (Qt index `-1`) keeps the whole base name, as `QString::left` does
for negative lengths. -/
def embeddedKeyOf (p : Str) : Str :=
  match firstSubIdx (str "-embedded") (baseNameOf (fileNameOf p)) with
  | some i => (baseNameOf (fileNameOf p)).take i
  | none => baseNameOf (fileNameOf p)

/-- Name filter `*-embedded.*` used on the media-art directory listing. -/
def matchesEmbeddedGlob (name : Str) : Bool := strContains name (str "-embedded.")

/-- The `embeddedMediaArtFiles` map built at scan start from the media-art
directory listing: files matching `*-embedded.*`, keyed by the hash extracted
from their base name (`insert` keeps the first file for duplicate keys). -/
def initialEmbeddedFiles (artFiles : List Str) : List (Str × Str) :=
  (artFiles.filter (fun p => matchesEmbeddedGlob (fileNameOf p))).foldl
    (fun m p => insertA m (embeddedKeyOf p) p) []

/-- Artwork state at scan start, for a given media-art directory listing. -/
def initialArtState (artFiles : List Str) : ArtState :=
  { embeddedMediaArtFiles := initialEmbeddedFiles artFiles
    artFiles := artFiles
    writes := [] }

/-- The extensions accepted before content sniffing
(`LibraryUtils::mimeTypesExtensions`). -/
def mimeTypesExtensions : List Str :=
  [str "flac", str "aac", str "m4a", str "f4a", str "m4b", str "f4b",
   str "mp3", str "mpga", str "oga", str "ogg", str "opus", str "ape",
   str "mka", str "wav", str "wv", str "wvp"]

/-- The supported content-sniffed MIME types
(`LibraryUtils::mimeTypesByContent`). -/
def mimeTypesByContent : List Str :=
  [str "audio/flac", str "audio/mp4", str "audio/x-m4b", str "audio/mpeg",
   str "audio/x-vorbis+ogg", str "audio/x-flac+ogg", str "audio/x-opus+ogg",
   str "audio/x-ape", str "application/x-matroska", str "audio/x-wav",
   str "audio/x-wavpack"]

/-- Keep-first deduplication, with an accumulator of already-seen elements. -/
def dedupSeen [DecidableEq α] (seen : List α) : List α → List α
  | [] => []
  | x :: xs => if x ∈ seen then dedupSeen seen xs else x :: dedupSeen (x :: seen) xs

/-- Keep-first deduplication (`QStringList::removeDuplicates`, SQL `DISTINCT`
representatives in table order). -/
def dedupKeepFirst [DecidableEq α] (l : List α) : List α := dedupSeen [] l

/-- Ensure a trailing slash on a directory string (the loop body of
`prepareDirs`). -/
def ensureSlash (dir : Str) : Str :=
  if strEndsWith dir (str "/") then dir else dir ++ str "/"

/-- Model of the `prepareDirs` lambda: remove duplicates, then append a
trailing `/` to every entry that lacks one.  `QStringList::removeDuplicates`
keeps the first occurrence. -/
def prepareDirs (dirs : List Str) : List Str := (dedupKeepFirst dirs).map ensureSlash

/-- Model of the `isBlacklisted` lambda: the path is blacklisted when it
starts with any of the prepared blacklist directory strings. -/
def isBlacklisted (blacklistedDirectories : List Str) (path : Str) : Bool :=
  blacklistedDirectories.any (fun directory => strStartsWith path directory)

/-- Memoized model of the `isNoMediaDirectory` lambda: whether
`<directory>/.nomedia` is a file, cached per directory. -/
def isNoMediaDirectoryC (fs : Fs) (noMediaDirectories : List (Str × Bool))
    (directory : Str) : Bool × List (Str × Bool) :=
  match lookupA noMediaDirectories directory with
  | some b => (b, noMediaDirectories)
  | none =>
    let noMedia := fs.nomediaDirs.contains directory
    (noMedia, insertA noMediaDirectories directory noMedia)

/-- The user-configurable inputs read from the settings store. -/
structure SettingsM where
  libraryDirectories : List Str
  blacklistedDirectories : List Str
  useDirectoryMediaArt : Bool
  deriving Repr

/-- Persistent state transformed by one scan: the `tracks` table and the files
present in the media-art cache directory. -/
structure ScanState where
  rows : List Row
  artFiles : List Str
  deriving Repr, DecidableEq

/-- Existence test for an artwork path (`QFile::exists`): the path is a cache
file, a file listed in some directory, or a plain filesystem entry. -/
def artFileExists (fs : Fs) (artFiles : List Str) (p : Str) : Bool :=
  artFiles.contains p ||
    fs.dirEntries.any (fun de => de.2.any (fun n => de.1 ++ str "/" ++ n = p)) ||
    fs.entries.any (fun e => e.path = p && !e.isDir)

/-- Insert into a sorted list of ids. -/
def insertSorted (x : Int) : List Int → List Int
  | [] => [x]
  | y :: ys => if x ≤ y then x :: y :: ys else y :: insertSorted x ys

/-- Ascending sort of ids (the `ORDER BY id` of the pre-scan query). -/
def sortInts (l : List Int) : List Int := l.foldr insertSorted []

/-- Distinct row ids in table order. -/
def distinctIds (rows : List Row) : List Int := dedupKeepFirst (rows.map (·.id))

/-- Model of `SELECT id, filePath, modificationTime, mediaArt FROM tracks
GROUP BY id ORDER BY id`: one representative row per id, ascending by id.  The
representative within a group is the first row in table order (SQLite leaves
the choice unspecified; all rows of an id agree on the selected columns on
every state the scan itself produces). -/
def groupedById (rows : List Row) : List Row :=
  (sortInts (distinctIds rows)).filterMap
    (fun i => rows.find? (fun r => r.id = i))

/-- State accumulated by the pre-scan pass over the database rows. -/
structure PrescanState where
  files : List (Str × Int)
  lastId : Int
  modificationTimeHash : List (Int × Int)
  mediaArtHash : List (Int × Str)
  mediaArtExistanceHash : List (Str × Bool)
  deletedMediaArt : List Str
  filesToRemove : List Int
  noMediaDirectories : List (Str × Bool)
  deriving Repr

/-- Vanished-row test of the pre-scan pass: a row is marked for removal when
its path no longer is an existing readable regular file, is outside every
library directory, is blacklisted, or sits in a no-media directory. -/
def prescanRemove (fs : Fs) (libraryDirectories blacklisted : List Str)
    (noMedia : List (Str × Bool)) (filePath : Str) :
    Bool × List (Str × Bool) :=
  match fs.entries.find? (fun e => e.path = filePath) with
  | none => (true, noMedia)
  | some e =>
    if e.isDir || !e.readable then (true, noMedia)
    else if !(libraryDirectories.any (fun d => strStartsWith filePath d)) then
      (true, noMedia)
    else if isBlacklisted blacklisted filePath then (true, noMedia)
    else isNoMediaDirectoryC fs noMedia e.dir

/-- One iteration of the pre-scan loop over the grouped rows. -/
def prescanStep (fs : Fs) (libraryDirectories blacklisted : List Str)
    (artFiles0 : List Str) (s : PrescanState) (r : Row) : PrescanState :=
  let s := { s with lastId := r.id }
  let (remove, noMedia) :=
    prescanRemove fs libraryDirectories blacklisted s.noMediaDirectories r.filePath
  let s := { s with noMediaDirectories := noMedia }
  if remove then { s with filesToRemove := s.filesToRemove ++ [r.id] }
  else
    let s := { s with
      files := insertA s.files r.filePath r.id
      modificationTimeHash := insertI s.modificationTimeHash r.id r.modificationTime }
    if r.mediaArt.isEmpty then
      { s with mediaArtHash := insertI s.mediaArtHash r.id r.mediaArt }
    else
      match lookupA s.mediaArtExistanceHash r.mediaArt with
      | none =>
        if artFileExists fs artFiles0 r.mediaArt then
          { s with
            mediaArtExistanceHash := insertA s.mediaArtExistanceHash r.mediaArt true
            mediaArtHash := insertI s.mediaArtHash r.id r.mediaArt }
        else
          { s with
            mediaArtExistanceHash := insertA s.mediaArtExistanceHash r.mediaArt false
            deletedMediaArt := s.deletedMediaArt ++ [r.mediaArt] }
      | some true => { s with mediaArtHash := insertI s.mediaArtHash r.id r.mediaArt }
      | some false => s

/-- The whole pre-scan pass. -/
def prescan (fs : Fs) (libraryDirectories blacklisted : List Str)
    (artFiles0 : List Str) (rows : List Row) : PrescanState :=
  (groupedById rows).foldl (prescanStep fs libraryDirectories blacklisted artFiles0)
    { files := []
      lastId := -1
      modificationTimeHash := []
      mediaArtHash := []
      mediaArtExistanceHash := []
      deletedMediaArt := []
      filesToRemove := []
      noMediaDirectories := [] }

/-- Mutable state threaded through the filesystem walk. -/
structure WalkState where
  rows : List Row
  lastId : Int
  filesToRemove : List Int
  noMediaDirectories : List (Str × Bool)
  mediaArtDirectoriesHash : List (Str × Str)
  art : ArtState
  deriving Repr

/-- One iteration of the walk: classify a filesystem entry against the
pre-scan index and apply the matching transition of the reconciliation state
machine (new / unchanged / changed). -/
def processFile (env : Env) (fs : Fs) (blacklisted : List Str) (prefer : Bool)
    (files : List (Str × Int)) (modificationTimeHash : List (Int × Int))
    (mediaArtHash : List (Int × Str)) (ws : WalkState) (e : FsEntry) :
    WalkState :=
  if e.isDir then ws
  else if !e.readable then ws
  else
    match lookupA files e.path with
    | none =>
      let (noMedia, nmCache) := isNoMediaDirectoryC fs ws.noMediaDirectories e.dir
      let ws := { ws with noMediaDirectories := nmCache }
      if noMedia then ws
      else if isBlacklisted blacklisted e.path then ws
      else if mimeTypesExtensions.contains e.suffix then
        if mimeTypesByContent.contains e.mime then
          let trackInfo := e.tags
          let lastId := ws.lastId + 1
          let (mediaArt, dirCache, a) :=
            getTrackMediaArt env fs trackInfo.mediaArtData e.dir
              ws.mediaArtDirectoriesHash prefer ws.art
          { ws with
            lastId := lastId
            mediaArtDirectoriesHash := dirCache
            art := a
            rows := updateTrackInDatabase ws.rows false lastId e.modTime e.path
                      trackInfo mediaArt }
        else ws
      else ws
    | some id =>
      if e.modTime = lookupD modificationTimeHash id 0 then
        let (mediaArt, deleted) :=
          match lookupI mediaArtHash id with
          | none => (([] : Str), true)
          | some m => (m, false)
        let embeddedOrManual := strStartsWith mediaArt env.mediaArtDirectory
        let embedded := embeddedOrManual && strContains mediaArt (str "-embedded")
        let manual := embeddedOrManual && !embedded
        if manual then ws
        else if !embedded || prefer then
          let mediaArtData :=
            if (!deleted && mediaArt.isEmpty) || embedded then ([] : List Nat)
            else e.tags.mediaArtData
          let (newMediaArt, dirCache, a) :=
            getTrackMediaArt env fs mediaArtData e.dir
              ws.mediaArtDirectoriesHash prefer ws.art
          let ws := { ws with mediaArtDirectoriesHash := dirCache, art := a }
          if !(embedded && newMediaArt.isEmpty) && newMediaArt ≠ mediaArt then
            { ws with
              rows := ws.rows.map (fun r =>
                if r.id = id then { r with mediaArt := emptyIfNull newMediaArt }
                else r) }
          else ws
        else ws
      else
        if mimeTypesByContent.contains e.mime then
          let trackInfo := e.tags
          let (mediaArt, dirCache, a) :=
            getTrackMediaArt env fs trackInfo.mediaArtData e.dir
              ws.mediaArtDirectoriesHash prefer ws.art
          { ws with
            mediaArtDirectoriesHash := dirCache
            art := a
            rows := updateTrackInDatabase ws.rows true id e.modTime e.path
                      trackInfo mediaArt }
        else { ws with filesToRemove := ws.filesToRemove ++ [id] }

/-- The filesystem walk: for every prepared library directory, iterate over
the entries beneath it in filesystem order. -/
def walkFiles (env : Env) (fs : Fs) (libraryDirectories blacklisted : List Str)
    (prefer : Bool) (files : List (Str × Int))
    (modificationTimeHash : List (Int × Int)) (mediaArtHash : List (Int × Str))
    (ws : WalkState) : WalkState :=
  libraryDirectories.foldl
    (fun ws topLevelDirectory =>
      (fs.entries.filter (fun e => strStartsWith e.path topLevelDirectory)).foldl
        (processFile env fs blacklisted prefer files modificationTimeHash mediaArtHash)
        ws)
    ws

/-- Post-walk removal: `DELETE FROM tracks WHERE id IN (...)`, executed only
when the list is non-empty. -/
def applyRemovals (rows : List Row) (filesToRemove : List Int) : List Row :=
  if filesToRemove.isEmpty then rows
  else rows.filter (fun r => !filesToRemove.contains r.id)

/-- Post-walk nullification: `UPDATE tracks SET mediaArt = '' WHERE mediaArt
IN (...)` over the vanished artwork paths (the 999-parameter chunking changes
no row outcome and is folded into one pass). -/
def applyNullify (rows : List Row) (deletedMediaArt : List Str) : List Row :=
  if deletedMediaArt.isEmpty then rows
  else rows.map (fun r =>
    if deletedMediaArt.contains r.mediaArt then { r with mediaArt := [] } else r)

/-- All non-empty artwork paths referenced by the table
(`SELECT DISTINCT(mediaArt) FROM tracks WHERE mediaArt != ''`), as a set. -/
def allMediaArtOf (rows : List Row) : List Str :=
  (rows.map (·.mediaArt)).filter (fun m => !m.isEmpty)

/-- Model of `LibraryUtils::updateDatabase`'s scan body: open the store, load
and reconcile the pre-scan row set, walk the library directories, then delete
marked rows, null dangling artwork references and sweep orphaned cache
files. -/
def updateDatabase (env : Env) (settings : SettingsM) (fs : Fs)
    (s : ScanState) : ScanState :=
  let libraryDirectories := prepareDirs settings.libraryDirectories
  let blacklisted := prepareDirs settings.blacklistedDirectories
  let pre := prescan fs libraryDirectories blacklisted s.artFiles s.rows
  let ws0 : WalkState :=
    { rows := s.rows
      lastId := pre.lastId
      filesToRemove := pre.filesToRemove
      noMediaDirectories := pre.noMediaDirectories
      mediaArtDirectoriesHash := []
      art := initialArtState s.artFiles }
  let ws := walkFiles env fs libraryDirectories blacklisted
    settings.useDirectoryMediaArt pre.files pre.modificationTimeHash
    pre.mediaArtHash ws0
  let rows := applyRemovals ws.rows ws.filesToRemove
  let rows := applyNullify rows pre.deletedMediaArt
  let allMediaArt := allMediaArtOf rows
  { rows := rows
    artFiles := ws.art.artFiles.filter (fun p => allMediaArt.contains p) }

/-- Case folding applied by the `COLLATE NOCASE` columns (`artist`, `album`,
`title`). -/
def nocase (s : Str) : Str := s.map Char.toLower

/-- Model of `LibraryUtils::artistsCount`: guard on database initialization,
then `SELECT COUNT(DISTINCT(artist))` (case-insensitive per the column's
collation). -/
def artistsCount (databaseInitialized : Bool) (rows : List Row) : Int :=
  if !databaseInitialized then 0
  else (dedupKeepFirst (rows.map (fun r => nocase r.artist))).length

/-- Model of `LibraryUtils::albumsCount`. -/
def albumsCount (databaseInitialized : Bool) (rows : List Row) : Int :=
  if !databaseInitialized then 0
  else (dedupKeepFirst (rows.map (fun r => nocase r.album))).length

/-- Model of `LibraryUtils::tracksCount`: `SELECT COUNT(DISTINCT(id))`. -/
def tracksCount (databaseInitialized : Bool) (rows : List Row) : Int :=
  if !databaseInitialized then 0
  else (dedupKeepFirst (rows.map (·.id))).length

/-- Model of `LibraryUtils::tracksDuration`: `SELECT SUM(duration) FROM
(SELECT duration from tracks GROUP BY id)` — one duration per distinct id. -/
def tracksDuration (databaseInitialized : Bool) (rows : List Row) : Int :=
  if !databaseInitialized then 0
  else ((groupedById rows).map (·.duration)).sum

/-- Distinct non-empty artwork paths satisfying a row filter (the `GROUP BY
mediaArt` of the random-art queries). -/
def distinctMediaArt (rows : List Row) (keep : Row → Bool) : List Str :=
  dedupKeepFirst ((rows.filter (fun r => !r.mediaArt.isEmpty && keep r)).map (·.mediaArt))

/-- Uniform pick among a list of candidates (`ORDER BY RANDOM() LIMIT 1`,
with the random draw supplied as a parameter). -/
def randomPick (candidates : List Str) (pick : Nat) : Str :=
  if candidates.isEmpty then [] else candidates.getD (pick % candidates.length) []

/-- Model of `LibraryUtils::randomMediaArt`. -/
def randomMediaArt (databaseInitialized : Bool) (rows : List Row) (pick : Nat) :
    Str :=
  if !databaseInitialized then []
  else randomPick (distinctMediaArt rows (fun _ => true)) pick

/-- Model of `LibraryUtils::randomMediaArtForArtist` (the `artist = ?`
comparison uses the column's NOCASE collation). -/
def randomMediaArtForArtist (databaseInitialized : Bool) (rows : List Row)
    (artist : Str) (pick : Nat) : Str :=
  if !databaseInitialized then []
  else randomPick
    (distinctMediaArt rows (fun r => nocase r.artist = nocase artist)) pick

/-- Model of `LibraryUtils::randomMediaArtForAlbum`. -/
def randomMediaArtForAlbum (databaseInitialized : Bool) (rows : List Row)
    (artist album : Str) (pick : Nat) : Str :=
  if !databaseInitialized then []
  else randomPick
    (distinctMediaArt rows
      (fun r => nocase r.artist = nocase artist && nocase r.album = nocase album))
    pick

/-- Model of `LibraryUtils::randomMediaArtForGenre` (the `genre` column has no
NOCASE collation, so the comparison is exact). -/
def randomMediaArtForGenre (databaseInitialized : Bool) (rows : List Row)
    (genre : Str) (pick : Nat) : Str :=
  if !databaseInitialized then []
  else randomPick (distinctMediaArt rows (fun r => r.genre = genre)) pick

/-! ## Helper lemmas -/

/-- `forEachOrOnce` is cartesian flat-mapping over the defaulted list. -/
theorem forEachOrOnce_eq_flatMap (l : List Str) (f : Str → List Row) :
    forEachOrOnce l f = (specDefaultList l).flatMap f := by
  cases l <;> simp [forEachOrOnce, specDefaultList]

/-- Flat-mapping a one-row body is mapping. -/
theorem flatMap_singleton_eq_map (l : List α) (f : α → β) :
    l.flatMap (fun a => [f a]) = l.map f := by
  induction l with
  | nil => rfl
  | cons a t ih => simp [ih]

/-- The source's nested `forEachOrOnce` insertion equals the spec's cartesian
product over defaulted lists. -/
theorem trackRows_eq_specCartesianRows (id modTime : Int) (filePath : Str)
    (info : TagInfo) (mediaArt : Str) :
    trackRows id modTime filePath info mediaArt =
      specCartesianRows id modTime filePath info mediaArt := by
  unfold trackRows specCartesianRows
  rw [forEachOrOnce_eq_flatMap]
  congr 1
  funext artist
  rw [forEachOrOnce_eq_flatMap]
  congr 1
  funext album
  rw [forEachOrOnce_eq_flatMap, ← flatMap_singleton_eq_map]
  simp [emptyIfNull]

/-- The defaulted list has `sizeOrOne` elements. -/
theorem specDefaultList_length (l : List Str) :
    (specDefaultList l).length = sizeOrOne l := by
  cases l <;> simp [specDefaultList, sizeOrOne]

/-- Length of a flat map whose body always produces `n` elements. -/
theorem length_flatMap_const (l : List α) (f : α → List β) (n : Nat)
    (h : ∀ a, (f a).length = n) : (l.flatMap f).length = l.length * n := by
  induction l with
  | nil => simp
  | cons a t ih => simp [h, ih, Nat.succ_mul, Nat.add_comm]

/-- The insertion produces exactly the cartesian-product number of rows. -/
theorem trackRows_length (id modTime : Int) (filePath : Str) (info : TagInfo)
    (mediaArt : Str) :
    (trackRows id modTime filePath info mediaArt).length =
      sizeOrOne info.artists * sizeOrOne info.albums * sizeOrOne info.genres := by
  rw [trackRows_eq_specCartesianRows]
  unfold specCartesianRows
  rw [length_flatMap_const _ _ (sizeOrOne info.albums * sizeOrOne info.genres),
    specDefaultList_length, Nat.mul_assoc]
  intro artist
  rw [length_flatMap_const _ _ (sizeOrOne info.genres)]
  · rw [specDefaultList_length]
  · intro album
    rw [List.length_map, specDefaultList_length]

/-- Every inserted row carries the shared per-file columns. -/
theorem trackRows_shared (id modTime : Int) (filePath : Str) (info : TagInfo)
    (mediaArt : Str) (r : Row)
    (hr : r ∈ trackRows id modTime filePath info mediaArt) :
    r.id = id ∧ r.modificationTime = modTime ∧ r.title = info.title ∧
      r.duration = info.duration ∧ r.discNumber = info.discNumber ∧
      r.filePath = filePath ∧ r.mediaArt = mediaArt ∧ r.year = info.year ∧
      r.trackNumber = info.trackNumber := by
  rw [trackRows_eq_specCartesianRows] at hr
  unfold specCartesianRows at hr
  simp only [List.mem_flatMap, List.mem_map] at hr
  obtain ⟨a, -, b, -, g, -, rfl⟩ := hr
  exact ⟨rfl, rfl, rfl, rfl, rfl, rfl, rfl, rfl, rfl⟩

/-- `sizeOrOne` is positive. -/
theorem sizeOrOne_pos (l : List Str) : 0 < sizeOrOne l := by
  unfold sizeOrOne
  split
  · exact Nat.one_pos
  · rename_i h
    have hne : l ≠ [] := by simpa [List.isEmpty_iff] using h
    exact List.length_pos.mpr hne

/-- The insertion is never empty. -/
theorem trackRows_ne_nil (id modTime : Int) (filePath : Str) (info : TagInfo)
    (mediaArt : Str) : trackRows id modTime filePath info mediaArt ≠ [] := by
  intro h
  have hlen := trackRows_length id modTime filePath info mediaArt
  rw [h] at hlen
  simp only [List.length_nil] at hlen
  have hp := Nat.mul_pos
    (Nat.mul_pos (sizeOrOne_pos info.artists) (sizeOrOne_pos info.albums))
    (sizeOrOne_pos info.genres)
  omega

/-! ## C1: cartesian expansion of the insertion -/

/-- C1.  For every insertion of a track file into the index, exactly one row
is inserted per element of the cartesian product of (artists × albums ×
genres), where any empty list is replaced by a single empty-string entry, and
all inserted rows share the same id, modificationTime, title, duration,
discNumber, filePath and mediaArt; a file with artists `{A, B}`, genres `{X}`
and no album produces exactly 2 rows, both with album `""`, one per artist. -/
theorem claim_C1_cartesian_insert :
    (∀ (id modTime : Int) (filePath : Str) (info : TagInfo) (mediaArt : Str),
       trackRows id modTime filePath info mediaArt =
         specCartesianRows id modTime filePath info mediaArt ∧
       (trackRows id modTime filePath info mediaArt).length =
         sizeOrOne info.artists * sizeOrOne info.albums * sizeOrOne info.genres ∧
       ∀ r ∈ trackRows id modTime filePath info mediaArt,
         r.id = id ∧ r.modificationTime = modTime ∧ r.title = info.title ∧
           r.duration = info.duration ∧ r.discNumber = info.discNumber ∧
           r.filePath = filePath ∧ r.mediaArt = mediaArt) ∧
    trackRows 7 5 (str "/music/song.mp3")
        { title := str "T", artists := [str "A", str "B"], albums := [],
          genres := [str "X"], year := 2001, trackNumber := 3,
          discNumber := str "1", duration := 120, mediaArtData := [] }
        (str "/art.jpg") =
      [{ id := 7, modificationTime := 5, year := 2001, trackNumber := 3,
         duration := 120, filePath := str "/music/song.mp3", title := str "T",
         artist := str "A", album := [], discNumber := str "1",
         genre := str "X", mediaArt := str "/art.jpg" },
       { id := 7, modificationTime := 5, year := 2001, trackNumber := 3,
         duration := 120, filePath := str "/music/song.mp3", title := str "T",
         artist := str "B", album := [], discNumber := str "1",
         genre := str "X", mediaArt := str "/art.jpg" }] := by
  constructor
  · intro id modTime filePath info mediaArt
    refine ⟨trackRows_eq_specCartesianRows .., trackRows_length .., ?_⟩
    intro r hr
    have h := trackRows_shared id modTime filePath info mediaArt r hr
    tauto
  · rfl

/-! ## C10: uninitialized-database query guard -/

/-- C10.  Whenever database initialization did not succeed, every read-only
query operation returns 0 (counts, duration) or the empty string (artwork
picks) for every possible table content, i.e. without consulting the
database. -/
theorem claim_C10_uninitialized_guard :
    ∀ (rows : List Row) (pick : Nat) (artist album genre : Str),
      artistsCount false rows = 0 ∧ albumsCount false rows = 0 ∧
      tracksCount false rows = 0 ∧ tracksDuration false rows = 0 ∧
      randomMediaArt false rows pick = [] ∧
      randomMediaArtForArtist false rows artist pick = [] ∧
      randomMediaArtForAlbum false rows artist album pick = [] ∧
      randomMediaArtForGenre false rows genre pick = [] := by
  intro rows pick artist album genre
  simp [artistsCount, albumsCount, tracksCount, tracksDuration, randomMediaArt,
    randomMediaArtForArtist, randomMediaArtForAlbum, randomMediaArtForGenre]

/-- Witness for C1: a concrete inserted row satisfying the membership
hypothesis of the sharing clause. -/
theorem claim_C1_cartesian_insert_witness :
    ({ id := 7, modificationTime := 5, year := 2001, trackNumber := 3,
       duration := 120, filePath := str "/music/song.mp3", title := str "T",
       artist := str "A", album := [], discNumber := str "1",
       genre := str "X", mediaArt := str "/art.jpg" } : Row) ∈
      trackRows 7 5 (str "/music/song.mp3")
        { title := str "T", artists := [str "A", str "B"], albums := [],
          genres := [str "X"], year := 2001, trackNumber := 3,
          discNumber := str "1", duration := 120, mediaArtData := [] }
        (str "/art.jpg") ∧
    ({ id := 7, modificationTime := 5, year := 2001, trackNumber := 3,
       duration := 120, filePath := str "/music/song.mp3", title := str "T",
       artist := str "A", album := [], discNumber := str "1",
       genre := str "X", mediaArt := str "/art.jpg" } : Row).id = 7 :=
  ⟨by decide,
   ((claim_C1_cartesian_insert.1 7 5 (str "/music/song.mp3")
       { title := str "T", artists := [str "A", str "B"], albums := [],
         genres := [str "X"], year := 2001, trackNumber := 3,
         discNumber := str "1", duration := 120, mediaArtData := [] }
       (str "/art.jpg")).2.2 _ (by decide)).1⟩

/-! ## C8: duration attributed once per unique id -/

/-- One track file's insertion request (the arguments the scan passes to
`updateTrackInDatabase` for a file that is not yet in the store). -/
structure InsertItem where
  id : Int
  modTime : Int
  filePath : Str
  info : TagInfo
  mediaArt : Str
  deriving Repr, DecidableEq

/-- The rows one insertion produces. -/
def itemRows (it : InsertItem) : List Row :=
  trackRows it.id it.modTime it.filePath it.info it.mediaArt

/-- Insert a batch of new files, as the scan does file by file. -/
def insertAllTracks (db : List Row) (items : List InsertItem) : List Row :=
  items.foldl
    (fun db it =>
      updateTrackInDatabase db false it.id it.modTime it.filePath it.info it.mediaArt)
    db

/-- A batch of fresh insertions appends each file's cartesian block. -/
theorem insertAllTracks_eq (db : List Row) (items : List InsertItem) :
    insertAllTracks db items = db ++ items.flatMap itemRows := by
  induction items generalizing db with
  | nil => simp [insertAllTracks]
  | cons it ts ih =>
    simp only [insertAllTracks, List.foldl_cons] at *
    rw [ih, List.flatMap_cons, ← List.append_assoc]
    simp [updateTrackInDatabase, itemRows]

/-- The ids of one insertion's block are that file's id, repeated. -/
theorem itemRows_ids (it : InsertItem) :
    (itemRows it).map (·.id) = List.replicate (itemRows it).length it.id := by
  have h : ∀ b ∈ (itemRows it).map (·.id), b = it.id := by
    intro b hb
    obtain ⟨r, hr, rfl⟩ := List.mem_map.mp hb
    exact (trackRows_shared _ _ _ _ _ r hr).1
  have := List.eq_replicate_of_mem h
  simpa using this

/-- The seen-accumulator only matters through membership of upcoming
elements. -/
theorem dedupSeen_congr [DecidableEq α] (l : List α) :
    ∀ (seen₁ seen₂ : List α), (∀ x ∈ l, x ∈ seen₁ ↔ x ∈ seen₂) →
      dedupSeen seen₁ l = dedupSeen seen₂ l := by
  induction l with
  | nil => intro _ _ _; rfl
  | cons y ys ih =>
    intro seen₁ seen₂ h
    have hy := h y (List.mem_cons_self y ys)
    rw [dedupSeen, dedupSeen]
    by_cases hmem : y ∈ seen₁
    · rw [if_pos hmem, if_pos (hy.mp hmem)]
      exact ih seen₁ seen₂ (fun x hx => h x (List.mem_cons_of_mem y hx))
    · rw [if_neg hmem, if_neg (fun hc => hmem (hy.mpr hc))]
      refine congrArg (y :: ·) (ih _ _ ?_)
      intro x hx
      simp only [List.mem_cons]
      rw [h x (List.mem_cons_of_mem y hx)]

/-- A run of an already-seen element is dropped entirely. -/
theorem dedupSeen_replicate_append [DecidableEq α] (n : Nat) (i : α)
    (seen rest : List α) (h : i ∈ seen) :
    dedupSeen seen (List.replicate n i ++ rest) = dedupSeen seen rest := by
  induction n with
  | zero => rfl
  | succ m ihm => rw [List.replicate_succ, List.cons_append, dedupSeen, if_pos h, ihm]

/-- A replicate block contributes exactly one representative to the keep-first
deduplication, provided its element does not occur later. -/
theorem dedupKeepFirst_replicate_append (n : Nat) (i : Int) (rest : List Int)
    (h : ∀ x ∈ rest, x ≠ i) :
    dedupKeepFirst (List.replicate (n + 1) i ++ rest) =
      i :: dedupKeepFirst rest := by
  unfold dedupKeepFirst
  rw [List.replicate_succ, List.cons_append, dedupSeen,
    if_neg (List.not_mem_nil i), dedupSeen_replicate_append n i _ rest
      (List.mem_cons_self i [])]
  refine congrArg (i :: ·) (dedupSeen_congr rest [i] [] ?_)
  intro x hx
  simp [h x hx]

/-- With pairwise distinct file ids, the distinct row ids of a batch insertion
are exactly the file ids, in order. -/
theorem distinctIds_insertAll (items : List InsertItem)
    (h : (items.map (·.id)).Nodup) :
    distinctIds (items.flatMap itemRows) = items.map (·.id) := by
  induction items with
  | nil => rfl
  | cons it ts ih =>
    rw [List.map_cons] at h
    obtain ⟨hni, hnd⟩ := List.nodup_cons.mp h
    rw [List.flatMap_cons]
    unfold distinctIds
    rw [List.map_append, itemRows_ids]
    obtain ⟨n, hn⟩ : ∃ n, (itemRows it).length = n + 1 := by
      have hne := trackRows_ne_nil it.id it.modTime it.filePath it.info it.mediaArt
      rcases hlen : (itemRows it).length with _ | n
      · exact absurd (List.eq_nil_of_length_eq_zero hlen) hne
      · exact ⟨n, rfl⟩
    have hrest : ∀ x ∈ (ts.flatMap itemRows).map (·.id), x ≠ it.id := by
      intro a ha
      obtain ⟨r, hr, rfl⟩ := List.mem_map.mp ha
      obtain ⟨jt, hjt, hrjt⟩ := List.mem_flatMap.mp hr
      have hrid : r.id = jt.id := (trackRows_shared _ _ _ _ _ r hrjt).1
      rw [hrid]
      intro hcontra
      exact hni (hcontra ▸ List.mem_map_of_mem (·.id) hjt)
    rw [hn, dedupKeepFirst_replicate_append _ _ _ hrest, List.map_cons]
    exact congrArg (it.id :: ·) (ih hnd)

/-- Inserting one element keeps the multiset. -/
theorem insertSorted_perm (x : Int) (l : List Int) :
    List.Perm (insertSorted x l) (x :: l) := by
  induction l with
  | nil => exact List.Perm.refl _
  | cons y ys ih =>
    rw [insertSorted]
    split
    · exact List.Perm.refl _
    · exact List.Perm.trans (List.Perm.cons y ih) (List.Perm.swap x y ys)

/-- Sorting keeps the multiset. -/
theorem sortInts_perm (l : List Int) : List.Perm (sortInts l) l := by
  induction l with
  | nil => exact List.Perm.refl _
  | cons x xs ih =>
    exact List.Perm.trans (insertSorted_perm x (sortInts xs)) (List.Perm.cons x ih)

/-- Durations selected by the grouped representatives, when every row's
duration is a function of its id. -/
theorem filterMap_find_durations (db : List Row) (f : Int → Int)
    (h1 : ∀ r ∈ db, r.duration = f r.id) :
    ∀ (l : List Int), (∀ i ∈ l, ∃ r ∈ db, r.id = i) →
      ((l.filterMap (fun i => db.find? (fun r => r.id = i))).map (·.duration)) =
        l.map f := by
  intro l
  induction l with
  | nil => intro _; rfl
  | cons i ts ih =>
    intro h2
    obtain ⟨r0, hr0, hid0⟩ := h2 i (List.mem_cons_self i ts)
    have hsome : (db.find? (fun r => r.id = i)).isSome := by
      rw [List.find?_isSome]
      exact ⟨r0, hr0, by simpa using hid0⟩
    obtain ⟨r, hfind⟩ := Option.isSome_iff_exists.mp hsome
    have hri : r.id = i := by simpa using List.find?_some hfind
    have hrdb : r ∈ db := List.mem_of_find?_eq_some hfind
    simp only [List.filterMap_cons, hfind, List.map_cons]
    rw [h1 r hrdb, hri, ih (fun j hj => h2 j (List.mem_cons_of_mem i hj))]

/-- With pairwise distinct ids, looking up an item's own id finds it. -/
theorem find_insertItem_self (items : List InsertItem)
    (hnd : (items.map (·.id)).Nodup) (it : InsertItem) (hit : it ∈ items) :
    items.find? (fun it' => it'.id = it.id) = some it := by
  have hfindsome : (items.find? (fun it' => it'.id = it.id)).isSome := by
    rw [List.find?_isSome]
    exact ⟨it, hit, by simp⟩
  obtain ⟨it', hfind⟩ := Option.isSome_iff_exists.mp hfindsome
  have hid : it'.id = it.id := by simpa using List.find?_some hfind
  have hmem : it' ∈ items := List.mem_of_find?_eq_some hfind
  have heq : it' = it := List.inj_on_of_nodup_map hnd hmem hit hid
  rw [hfind, heq]

/-- C8.  `tracksDuration` sums per-track durations with each duration
attributed exactly once per unique id (a file expanded into multiple
cartesian rows contributes its duration once); in the scenario of one indexed
track with duration 120, `tracksDuration` is 120 and `tracksCount` is 1. -/
theorem claim_C8_tracksDuration_per_id :
    (∀ (items : List InsertItem), (items.map (·.id)).Nodup →
       tracksDuration true (insertAllTracks [] items) =
         (items.map (fun it => it.info.duration)).sum) ∧
    tracksDuration true
        (trackRows 0 5 (str "/music/song.mp3")
          { title := str "T", artists := [str "A"], albums := [str "Alb"],
            genres := [], year := 0, trackNumber := 0, discNumber := [],
            duration := 120, mediaArtData := [] }
          (str "/music/folder.jpg")) = 120 ∧
    tracksCount true
        (trackRows 0 5 (str "/music/song.mp3")
          { title := str "T", artists := [str "A"], albums := [str "Alb"],
            genres := [], year := 0, trackNumber := 0, discNumber := [],
            duration := 120, mediaArtData := [] }
          (str "/music/folder.jpg")) = 1 := by
  refine ⟨?_, by decide, by decide⟩
  intro items hnd
  rw [insertAllTracks_eq, List.nil_append]
  have h1 : ∀ r ∈ items.flatMap itemRows,
      r.duration = (fun i => ((items.find? (fun it => it.id = i)).map
        (fun it => it.info.duration)).getD 0) r.id := by
    intro r hr
    obtain ⟨it, hit, hrit⟩ := List.mem_flatMap.mp hr
    have hshare := trackRows_shared _ _ _ _ _ r hrit
    show r.duration = ((items.find? (fun it => it.id = r.id)).map
      (fun it => it.info.duration)).getD 0
    rw [hshare.2.2.2.1, hshare.1, find_insertItem_self items hnd it hit]
    rfl
  have h2 : ∀ i ∈ sortInts (distinctIds (items.flatMap itemRows)),
      ∃ r ∈ items.flatMap itemRows, r.id = i := by
    intro i hi
    have hmem : i ∈ distinctIds (items.flatMap itemRows) :=
      (sortInts_perm _).mem_iff.mp hi
    rw [distinctIds_insertAll items hnd] at hmem
    obtain ⟨it, hit, rfl⟩ := List.mem_map.mp hmem
    obtain ⟨r, hrit⟩ := List.exists_mem_of_ne_nil _
      (trackRows_ne_nil it.id it.modTime it.filePath it.info it.mediaArt)
    refine ⟨r, List.mem_flatMap.mpr ⟨it, hit, hrit⟩, ?_⟩
    exact (trackRows_shared _ _ _ _ _ r hrit).1
  unfold tracksDuration groupedById
  simp only [Bool.not_true, if_neg]
  rw [filterMap_find_durations (items.flatMap itemRows)
    (fun i => ((items.find? (fun it => it.id = i)).map
      (fun it => it.info.duration)).getD 0) h1 _ h2]
  have hperm := ((sortInts_perm (distinctIds (items.flatMap itemRows))).map
    (fun i => ((items.find? (fun it => it.id = i)).map
      (fun it => it.info.duration)).getD 0)).sum_eq
  rw [hperm, distinctIds_insertAll items hnd, List.map_map]
  apply congrArg List.sum
  apply List.map_congr_left
  intro it hit
  show ((items.find? (fun it' => it'.id = it.id)).map
    (fun it => it.info.duration)).getD 0 = it.info.duration
  rw [find_insertItem_self items hnd it hit]
  rfl

/-- Witness for C8: two files with distinct ids, one expanded into two
cartesian rows, contribute their durations once each. -/
theorem claim_C8_tracksDuration_per_id_witness :
    (([{ id := 0, modTime := 5, filePath := str "/a.mp3",
         info := { title := str "T", artists := [str "A", str "B"],
                   albums := [], genres := [str "X"], year := 0,
                   trackNumber := 0, discNumber := [], duration := 120,
                   mediaArtData := [] },
         mediaArt := [] },
       { id := 1, modTime := 6, filePath := str "/b.mp3",
         info := { title := str "U", artists := [], albums := [],
                   genres := [], year := 0, trackNumber := 0,
                   discNumber := [], duration := 70, mediaArtData := [] },
         mediaArt := [] }] : List InsertItem).map (·.id)).Nodup ∧
    tracksDuration true
      (insertAllTracks []
        [{ id := 0, modTime := 5, filePath := str "/a.mp3",
           info := { title := str "T", artists := [str "A", str "B"],
                     albums := [], genres := [str "X"], year := 0,
                     trackNumber := 0, discNumber := [], duration := 120,
                     mediaArtData := [] },
           mediaArt := [] },
         { id := 1, modTime := 6, filePath := str "/b.mp3",
           info := { title := str "U", artists := [], albums := [],
                     genres := [], year := 0, trackNumber := 0,
                     discNumber := [], duration := 70, mediaArtData := [] },
           mediaArt := [] }]) = 190 :=
  ⟨by decide, by
    rw [claim_C8_tracksDuration_per_id.1 _ (by decide)]
    decide⟩

/-! ## C2: art source precedence -/

/-- A non-empty list is not `isEmpty`. -/
theorem isEmpty_false_of_ne_nil (l : List α) (h : l ≠ []) : l.isEmpty = false := by
  cases l with
  | nil => exact absurd rfl h
  | cons a t => rfl

/-- A directory-art path (directory, slash, name) is never empty. -/
theorem dirArtPath_isEmpty_false (a b : Str) :
    (a ++ str "/" ++ b).isEmpty = false := by
  cases a <;> rfl

/-- C2.  With both a sibling-directory image and non-empty embedded bytes
available, `preferDirectoryArt = true` resolves to the directory image and
`false` to the embedded-art cache path; with `preferDirectoryArt = true` and
no directory image, non-empty embedded bytes are the fallback; with
`preferDirectoryArt = false` and empty embedded bytes, the directory image is
used.  (The embedded side assumes the bytes' content type is sniffable, so
the cache file can be produced.) -/
theorem claim_C2_art_precedence (env : Env) (fs : Fs) (data : List Nat)
    (dir name : Str) (rest : List Str) (dirCache : List (Str × Str))
    (a : ArtState)
    (hcache : lookupA dirCache dir = none)
    (hfilter : (dirEntriesOf fs dir).filter matchesMediaArtName = name :: rest)
    (hmiss : lookupA a.embeddedMediaArtFiles (env.md5Hex data) = none)
    (hsniff : env.sniffSuffix data ≠ [])
    (hdata : data ≠ []) :
    (getTrackMediaArt env fs data dir dirCache true a).1 =
        dir ++ str "/" ++ name ∧
    (getTrackMediaArt env fs data dir dirCache false a).1 =
        embeddedArtPath env.mediaArtDirectory (env.md5Hex data)
          (env.sniffSuffix data) ∧
    (∀ (dir2 : Str) (dirCache2 : List (Str × Str)),
       lookupA dirCache2 dir2 = none →
       (dirEntriesOf fs dir2).filter matchesMediaArtName = [] →
       (getTrackMediaArt env fs data dir2 dirCache2 true a).1 =
         embeddedArtPath env.mediaArtDirectory (env.md5Hex data)
           (env.sniffSuffix data)) ∧
    (getTrackMediaArt env fs [] dir dirCache false a).1 =
        dir ++ str "/" ++ name := by
  have hdataE : data.isEmpty = false := isEmpty_false_of_ne_nil data hdata
  have hsniffE : (env.sniffSuffix data).isEmpty = false :=
    isEmpty_false_of_ne_nil _ hsniff
  refine ⟨?_, ?_, ?_, ?_⟩
  · simp only [getTrackMediaArt, findMediaArtForDirectory, hcache, hfilter,
      if_true, dirArtPath_isEmpty_false, Bool.false_eq_true, if_false]
  · simp only [getTrackMediaArt, hdataE, Bool.false_eq_true, if_false,
      saveEmbeddedMediaArt, hmiss, hsniffE, embeddedArtPath]
  · intro dir2 dirCache2 hcache2 hfilter2
    simp only [getTrackMediaArt, findMediaArtForDirectory, hcache2, hfilter2,
      List.isEmpty_nil, if_true, hdataE, Bool.not_false, saveEmbeddedMediaArt,
      hmiss, hsniffE, embeddedArtPath, Bool.false_eq_true, if_false]
  · simp only [getTrackMediaArt, List.isEmpty_nil, if_true,
      findMediaArtForDirectory, hcache, hfilter, Bool.false_eq_true, if_false]

/-! ## C3: content-addressed embedded-art cache -/

/-- Character-list value of the `"/"` literal. -/
theorem str_slash : str "/" = ['/'] := by decide

/-- The `"-embedded"` literal in head-normal form. -/
theorem str_embedded_cons : str "-embedded" = '-' :: str "embedded" := by decide

/-- The `"-embedded."` literal splits off its final dot. -/
theorem str_embedded_dot : str "-embedded." = str "-embedded" ++ ['.'] := by decide

/-- `takeWhile` consumes a satisfying block and stops at the first failing
element. -/
theorem takeWhile_append_of_all (p : α → Bool) (l1 l2 : List α) (c : α)
    (h : ∀ x ∈ l1, p x = true) (hc : p c = false) :
    (l1 ++ c :: l2).takeWhile p = l1 := by
  induction l1 with
  | nil => simp [List.takeWhile_cons, hc]
  | cons a t ih =>
    rw [List.cons_append, List.takeWhile_cons, h a (List.mem_cons_self a t)]
    rw [ih (fun x hx => h x (List.mem_cons_of_mem a hx))]
    rfl

/-- A string starts with its own prefix. -/
theorem strStartsWith_append_self (l t : Str) :
    strStartsWith (l ++ t) l = true := by
  induction l with
  | nil => cases t <;> rfl
  | cons c cs ih => simp [strStartsWith, ih]

/-- The file name of `<dir>/<rest>` is `rest` when `rest` has no slash. -/
theorem fileNameOf_append (d rest : Str) (h : '/' ∉ rest) :
    fileNameOf (d ++ str "/" ++ rest) = rest := by
  unfold fileNameOf
  have hsplit : (d ++ str "/" ++ rest).reverse = rest.reverse ++ '/' :: d.reverse := by
    simp [List.reverse_append, str_slash]
  have hall : ∀ x ∈ rest.reverse, (fun x => decide (x ≠ '/')) x = true := by
    intro x hx
    simp only [decide_eq_true_eq]
    exact fun hc => h (hc ▸ List.mem_reverse.mp hx)
  rw [hsplit, takeWhile_append_of_all _ _ _ _ hall (by simp), List.reverse_reverse]

/-- The base name of `<md5>-embedded.<suffix>` is `<md5>-embedded` when the
hash has no dot. -/
theorem baseNameOf_embedded (h suf : Str) (hdot : '.' ∉ h) :
    baseNameOf (h ++ str "-embedded." ++ suf) = h ++ str "-embedded" := by
  unfold baseNameOf
  have hsplit : h ++ str "-embedded." ++ suf =
      (h ++ str "-embedded") ++ '.' :: suf := by
    rw [str_embedded_dot, ← List.append_assoc]
    simp [List.append_assoc]
  have hall : ∀ x ∈ h ++ str "-embedded", (fun x => decide (x ≠ '.')) x = true := by
    intro x hx
    simp only [decide_eq_true_eq]
    rcases List.mem_append.mp hx with hxh | hxe
    · exact fun hc => hdot (hc ▸ hxh)
    · exact (show ∀ y ∈ str "-embedded", y ≠ '.' by decide) x hxe
  rw [hsplit, takeWhile_append_of_all _ _ _ _ hall (by simp)]

/-- Searching `"-embedded"` inside `<md5>-embedded` finds it right after the
hash when the hash contains no dash. -/
theorem firstSubIdx_embedded (h : Str) (hdash : '-' ∉ h) :
    firstSubIdx (str "-embedded") (h ++ str "-embedded") = some h.length := by
  induction h with
  | nil => decide
  | cons c cs ih =>
    have hc : c ≠ '-' := fun hcontra => hdash (hcontra ▸ List.mem_cons_self c cs)
    rw [List.cons_append, firstSubIdx,
      if_neg ?_, ih (fun hx => hdash (List.mem_cons_of_mem c hx))]
    · rfl
    · rw [str_embedded_cons]
      simp [strStartsWith, hc]

/-- Round trip: the key extracted from a cache-file path built by
`saveEmbeddedMediaArt` is the hash it was built from. -/
theorem embeddedKeyOf_embeddedArtPath (dir h suf : Str)
    (hslash : '/' ∉ h) (hdot : '.' ∉ h) (hdash : '-' ∉ h)
    (hsufslash : '/' ∉ suf) :
    embeddedKeyOf (embeddedArtPath dir h suf) = h := by
  unfold embeddedKeyOf embeddedArtPath
  have hrest : '/' ∉ h ++ str "-embedded." ++ suf := by
    intro hmem
    rcases List.mem_append.mp hmem with hm | hm
    · rcases List.mem_append.mp hm with hm2 | hm2
      · exact hslash hm2
      · exact (show ('/' : Char) ∉ str "-embedded." by decide) hm2
    · exact hsufslash hm
  have hassoc : dir ++ str "/" ++ h ++ str "-embedded." ++ suf =
      dir ++ str "/" ++ (h ++ str "-embedded." ++ suf) := by
    simp [List.append_assoc]
  rw [hassoc, fileNameOf_append _ _ hrest, baseNameOf_embedded h suf hdot,
    firstSubIdx_embedded h hdash]
  exact List.take_left h (str "-embedded")

/-- A built cache-file name matches the `*-embedded.*` glob. -/
theorem matchesEmbeddedGlob_embeddedArtPath (dir h suf : Str)
    (hslash : '/' ∉ h) (hsufslash : '/' ∉ suf) :
    matchesEmbeddedGlob (fileNameOf (embeddedArtPath dir h suf)) = true := by
  unfold embeddedArtPath
  have hrest : '/' ∉ h ++ str "-embedded." ++ suf := by
    intro hmem
    rcases List.mem_append.mp hmem with hm | hm
    · rcases List.mem_append.mp hm with hm2 | hm2
      · exact hslash hm2
      · exact (show ('/' : Char) ∉ str "-embedded." by decide) hm2
    · exact hsufslash hm
  have hassoc : dir ++ str "/" ++ h ++ str "-embedded." ++ suf =
      dir ++ str "/" ++ (h ++ str "-embedded." ++ suf) := by
    simp [List.append_assoc]
  rw [hassoc, fileNameOf_append _ _ hrest]
  unfold matchesEmbeddedGlob strContains
  have hkey : ∀ (l : Str),
      (firstSubIdx (str "-embedded.") (l ++ str "-embedded." ++ suf)).isSome = true := by
    intro l
    induction l with
    | nil =>
      rw [List.nil_append]
      have hs : strStartsWith (str "-embedded." ++ suf) (str "-embedded.") = true :=
        strStartsWith_append_self _ _
      cases hsuf : str "-embedded." ++ suf with
      | nil => exact absurd (List.append_eq_nil.mp hsuf).1 (by decide)
      | cons a t =>
        rw [hsuf] at hs
        rw [firstSubIdx, if_pos hs]
        rfl
    | cons c cs ih =>
      simp only [List.cons_append]
      rw [firstSubIdx]
      split
      · rfl
      · simpa using ih
  exact hkey h

/-- A lookup that misses the front part of an appended map falls through. -/
theorem lookupA_append_left_none (m l : List (Str × α)) (k : Str)
    (h : lookupA m k = none) : lookupA (m ++ l) k = lookupA l k := by
  induction m with
  | nil => rfl
  | cons kv rest ih =>
    rw [lookupA] at h
    rw [List.cons_append, lookupA]
    split at h
    · exact absurd h (by simp)
    · rw [if_neg (by assumption)]
      exact ih h

/-- A lookup on an appended map misses only when it misses the front. -/
theorem lookupA_append_none_left (m l : List (Str × α)) (k : Str)
    (h : lookupA (m ++ l) k = none) : lookupA m k = none := by
  induction m with
  | nil => rfl
  | cons kv rest ih =>
    rw [List.cons_append, lookupA] at h
    rw [lookupA]
    split at h
    · exact absurd h (by simp)
    · rw [if_neg (by assumption)]
      exact ih h

/-- Inserting a missing key makes it found. -/
theorem lookupA_insertA_self (m : List (Str × α)) (k : Str) (v : α)
    (h : lookupA m k = none) : lookupA (insertA m k v) k = some v := by
  unfold insertA
  rw [h, lookupA_append_left_none m _ k h, lookupA, if_pos rfl]

/-- A found key names a map member. -/
theorem lookupA_mem (m : List (Str × α)) (k : Str) (v : α)
    (h : lookupA m k = some v) : (k, v) ∈ m := by
  induction m with
  | nil => exact absurd h (by simp [lookupA])
  | cons kv rest ih =>
    rw [lookupA] at h
    split at h
    · rename_i heq
      rw [List.mem_cons]
      left
      obtain rfl : kv.2 = v := by injection h
      obtain rfl : kv.1 = k := heq
      rfl
    · exact List.mem_cons_of_mem kv (ih h)

/-- Members of an insert-if-absent result are old members or the new pair. -/
theorem mem_insertA (m : List (Str × α)) (k : Str) (v : α) (x : Str × α)
    (hx : x ∈ insertA m k v) : x ∈ m ∨ x = (k, v) := by
  unfold insertA at hx
  split at hx
  · exact Or.inl hx
  · rcases List.mem_append.mp hx with hm | hs
    · exact Or.inl hm
    · exact Or.inr (List.mem_singleton.mp hs)

/-- A key missing from a keyed insert-fold is missing initially and differs
from every folded element's key. -/
theorem lookupA_foldl_insert_none (key : Str → Str) (l : List Str) (k : Str) :
    ∀ (m0 : List (Str × Str)),
      lookupA (l.foldl (fun m p => insertA m (key p) p) m0) k = none →
      lookupA m0 k = none ∧ ∀ p ∈ l, key p ≠ k := by
  induction l with
  | nil =>
    intro m0 h
    exact ⟨h, by simp⟩
  | cons p ps ih =>
    intro m0 h
    rw [List.foldl_cons] at h
    obtain ⟨h1, h2⟩ := ih (insertA m0 (key p) p) h
    have hm0 : lookupA m0 k = none := by
      unfold insertA at h1
      rcases hm : lookupA m0 (key p) with _ | v
      · rw [hm] at h1
        exact lookupA_append_none_left m0 _ k h1
      · rw [hm] at h1
        exact h1
    have hkp : key p ≠ k := by
      intro hc
      subst hc
      rw [lookupA_insertA_self m0 (key p) p hm0] at h1
      exact absurd h1 (by simp)
    refine ⟨hm0, ?_⟩
    intro q hq
    rcases List.mem_cons.mp hq with rfl | hq2
    · exact hkp
    · exact h2 q hq2

/-- Adding one matching file to the art directory adds exactly its hash-to-path
entry to the embedded-files map. -/
theorem lookupA_initialEmbeddedFiles_append (artFiles : List Str) (p k : Str)
    (hnone : lookupA (initialEmbeddedFiles artFiles) k = none)
    (hglob : matchesEmbeddedGlob (fileNameOf p) = true)
    (hkey : embeddedKeyOf p = k) :
    lookupA (initialEmbeddedFiles (artFiles ++ [p])) k = some p := by
  unfold initialEmbeddedFiles at *
  rw [List.filter_append]
  have hfp : List.filter (fun q => matchesEmbeddedGlob (fileNameOf q)) [p] = [p] := by
    simp [hglob]
  rw [hfp, List.foldl_append, List.foldl_cons, List.foldl_nil, hkey]
  exact lookupA_insertA_self _ _ _ hnone

/-- Cache well-formedness: every entry's key is the key parsed back from its
path.  Holds for the map built at scan start. -/
theorem wf_initialEmbeddedFiles (artFiles : List Str) :
    ∀ kp ∈ initialEmbeddedFiles artFiles, embeddedKeyOf kp.2 = kp.1 := by
  unfold initialEmbeddedFiles
  generalize List.filter (fun q => matchesEmbeddedGlob (fileNameOf q)) artFiles = l
  have hgen : ∀ (m0 : List (Str × Str)), (∀ kp ∈ m0, embeddedKeyOf kp.2 = kp.1) →
      ∀ kp ∈ l.foldl (fun m p => insertA m (embeddedKeyOf p) p) m0,
        embeddedKeyOf kp.2 = kp.1 := by
    induction l with
    | nil => intro m0 h kp hkp; exact h kp hkp
    | cons p ps ih =>
      intro m0 h kp hkp
      rw [List.foldl_cons] at hkp
      refine ih (insertA m0 (embeddedKeyOf p) p) ?_ kp hkp
      intro kq hkq
      rcases mem_insertA _ _ _ _ hkq with hold | rfl
      · exact h kq hold
      · rfl
  exact hgen [] (by simp)

/-- Hygiene of an MD5 hex digest as a path component: no slash, dot or dash. -/
def cleanHash (h : Str) : Prop := '/' ∉ h ∧ '.' ∉ h ∧ '-' ∉ h

/-- The path returned by a successful save parses back to the data's hash,
when the cache is well-formed. -/
theorem embeddedKeyOf_save (env : Env) (d : List Nat) (a : ArtState)
    (hwf : ∀ kp ∈ a.embeddedMediaArtFiles, embeddedKeyOf kp.2 = kp.1)
    (hclean : cleanHash (env.md5Hex d)) (hsuf : '/' ∉ env.sniffSuffix d)
    (hne : (saveEmbeddedMediaArt env d a).1 ≠ []) :
    embeddedKeyOf (saveEmbeddedMediaArt env d a).1 = env.md5Hex d := by
  simp only [saveEmbeddedMediaArt] at hne ⊢
  rcases hm : lookupA a.embeddedMediaArtFiles (env.md5Hex d) with _ | p
  · simp only [hm] at hne ⊢
    by_cases hsu : (env.sniffSuffix d).isEmpty
    · rw [if_pos hsu] at hne
      exact absurd rfl hne
    · rw [if_neg hsu] at hne ⊢
      exact embeddedKeyOf_embeddedArtPath env.mediaArtDirectory _ _
        hclean.1 hclean.2.1 hclean.2.2 hsuf
  · simp only [hm]
    exact hwf (env.md5Hex d, p) (lookupA_mem _ _ _ hm)

/-- A save keeps the cache well-formed. -/
theorem wf_save (env : Env) (d : List Nat) (a : ArtState)
    (hwf : ∀ kp ∈ a.embeddedMediaArtFiles, embeddedKeyOf kp.2 = kp.1)
    (hclean : cleanHash (env.md5Hex d)) (hsuf : '/' ∉ env.sniffSuffix d) :
    ∀ kp ∈ (saveEmbeddedMediaArt env d a).2.embeddedMediaArtFiles,
      embeddedKeyOf kp.2 = kp.1 := by
  simp only [saveEmbeddedMediaArt]
  rcases hm : lookupA a.embeddedMediaArtFiles (env.md5Hex d) with _ | p
  · simp only [hm]
    by_cases hsu : (env.sniffSuffix d).isEmpty
    · rw [if_pos hsu]
      exact hwf
    · rw [if_neg hsu]
      intro kp hkp
      rcases mem_insertA _ _ _ _ hkp with hold | rfl
      · exact hwf kp hold
      · exact embeddedKeyOf_embeddedArtPath env.mediaArtDirectory _ _
          hclean.1 hclean.2.1 hclean.2.2 hsuf
  · simp only [hm]
    exact hwf

/-- C3.  The cached embedded-art file path is a pure function of the art's
byte content: resolving the same bytes twice in one scan returns the same
path with no state change (no duplicate write); resolving the same bytes in a
later scan, whose embedded-files map is rebuilt from the art directory left
by the earlier scan, returns the same path; and two byte sequences with
distinct MD5 digests resolve (when both yield a cache file) to distinct
paths. -/
theorem claim_C3_content_addressing (env : Env) (data data2 : List Nat)
    (artFiles : List Str) (a : ArtState)
    (hwf : ∀ kp ∈ a.embeddedMediaArtFiles, embeddedKeyOf kp.2 = kp.1)
    (hclean1 : cleanHash (env.md5Hex data))
    (hclean2 : cleanHash (env.md5Hex data2))
    (hsuf1 : '/' ∉ env.sniffSuffix data)
    (hsuf2 : '/' ∉ env.sniffSuffix data2)
    (hhash : env.md5Hex data ≠ env.md5Hex data2) :
    (saveEmbeddedMediaArt env data (saveEmbeddedMediaArt env data a).2 =
      ((saveEmbeddedMediaArt env data a).1,
       (saveEmbeddedMediaArt env data a).2)) ∧
    ((saveEmbeddedMediaArt env data (initialArtState artFiles)).1 ≠ [] →
      (saveEmbeddedMediaArt env data
        (initialArtState
          (saveEmbeddedMediaArt env data (initialArtState artFiles)).2.artFiles)).1 =
        (saveEmbeddedMediaArt env data (initialArtState artFiles)).1) ∧
    ((saveEmbeddedMediaArt env data a).1 ≠ [] →
     (saveEmbeddedMediaArt env data2 (saveEmbeddedMediaArt env data a).2).1 ≠ [] →
     (saveEmbeddedMediaArt env data a).1 ≠
       (saveEmbeddedMediaArt env data2 (saveEmbeddedMediaArt env data a).2).1) := by
  refine ⟨?_, ?_, ?_⟩
  · -- same scan, same bytes: cache hit on the second call
    simp only [saveEmbeddedMediaArt]
    rcases hm : lookupA a.embeddedMediaArtFiles (env.md5Hex data) with _ | p
    · simp only [hm]
      by_cases hsu : (env.sniffSuffix data).isEmpty
      · simp [hsu, hm]
      · simp only [if_neg hsu]
        simp [lookupA_insertA_self _ _ _ hm]
    · simp [hm]
  · -- across scans: the map rebuilt from the left-behind art directory
    -- resolves the hash to the file written (or reused) earlier
    intro hne
    simp only [saveEmbeddedMediaArt, initialArtState] at hne ⊢
    rcases hm : lookupA (initialEmbeddedFiles artFiles) (env.md5Hex data) with _ | p
    · simp only [hm] at hne ⊢
      by_cases hsu : (env.sniffSuffix data).isEmpty
      · rw [if_pos hsu] at hne
        exact absurd rfl hne
      · simp only [if_neg hsu] at hne ⊢
        have hkey := embeddedKeyOf_embeddedArtPath env.mediaArtDirectory
          (env.md5Hex data) (env.sniffSuffix data)
          hclean1.1 hclean1.2.1 hclean1.2.2 hsuf1
        have hglob := matchesEmbeddedGlob_embeddedArtPath env.mediaArtDirectory
          (env.md5Hex data) (env.sniffSuffix data) hclean1.1 hsuf1
        have hnotmem : embeddedArtPath env.mediaArtDirectory (env.md5Hex data)
            (env.sniffSuffix data) ∉ artFiles := by
          intro hmem
          have hforall := (lookupA_foldl_insert_none embeddedKeyOf _ _ _ hm).2
          exact hforall _ (List.mem_filter.mpr ⟨hmem, hglob⟩) hkey
        simp [if_neg hnotmem,
          lookupA_initialEmbeddedFiles_append artFiles _ _ hm hglob hkey]
    · simp [hm]
  · -- distinct hashes: both returned paths parse back to their own hash
    intro hne1 hne2 heq
    have hk1 := embeddedKeyOf_save env data a hwf hclean1 hsuf1 hne1
    have hwf1 := wf_save env data a hwf hclean1 hsuf1
    have hk2 := embeddedKeyOf_save env data2 _ hwf1 hclean2 hsuf2 hne2
    rw [heq, hk2] at hk1
    exact hhash hk1.symm

/-- Witness for C2: a concrete directory with `cover.jpg` plus embedded bytes;
preference picks the directory image, otherwise the embedded cache path. -/
theorem claim_C2_art_precedence_witness :
    (getTrackMediaArt
        { md5Hex := fun _ => str "aa", sniffSuffix := fun _ => str "jpg",
          mediaArtDirectory := str "/cache" }
        { entries := [], dirEntries := [(str "/music", [str "cover.jpg"])],
          nomediaDirs := [] }
        [1] (str "/music") [] true (initialArtState [])).1 =
      str "/music" ++ str "/" ++ str "cover.jpg" ∧
    (getTrackMediaArt
        { md5Hex := fun _ => str "aa", sniffSuffix := fun _ => str "jpg",
          mediaArtDirectory := str "/cache" }
        { entries := [], dirEntries := [(str "/music", [str "cover.jpg"])],
          nomediaDirs := [] }
        [1] (str "/music") [] false (initialArtState [])).1 =
      embeddedArtPath (str "/cache") (str "aa") (str "jpg") := by
  have h := claim_C2_art_precedence
    { md5Hex := fun _ => str "aa", sniffSuffix := fun _ => str "jpg",
      mediaArtDirectory := str "/cache" }
    { entries := [], dirEntries := [(str "/music", [str "cover.jpg"])],
      nomediaDirs := [] }
    [1] (str "/music") (str "cover.jpg") [] [] (initialArtState [])
    (by decide) (by decide) (by decide) (by decide) (by decide)
  exact ⟨h.1, h.2.1⟩

/-- Witness for C3: concrete same-bytes reuse across scans and distinct-bytes
path separation. -/
theorem claim_C3_content_addressing_witness :
    (saveEmbeddedMediaArt
        { md5Hex := fun b => if b = [1] then str "aa" else str "bb",
          sniffSuffix := fun _ => str "jpg", mediaArtDirectory := str "/cache" }
        [1]
        (initialArtState
          (saveEmbeddedMediaArt
            { md5Hex := fun b => if b = [1] then str "aa" else str "bb",
              sniffSuffix := fun _ => str "jpg",
              mediaArtDirectory := str "/cache" }
            [1] (initialArtState [])).2.artFiles)).1 =
      (saveEmbeddedMediaArt
        { md5Hex := fun b => if b = [1] then str "aa" else str "bb",
          sniffSuffix := fun _ => str "jpg", mediaArtDirectory := str "/cache" }
        [1] (initialArtState [])).1 ∧
    (saveEmbeddedMediaArt
        { md5Hex := fun b => if b = [1] then str "aa" else str "bb",
          sniffSuffix := fun _ => str "jpg", mediaArtDirectory := str "/cache" }
        [1] (initialArtState [])).1 ≠
      (saveEmbeddedMediaArt
        { md5Hex := fun b => if b = [1] then str "aa" else str "bb",
          sniffSuffix := fun _ => str "jpg", mediaArtDirectory := str "/cache" }
        [2]
        (saveEmbeddedMediaArt
          { md5Hex := fun b => if b = [1] then str "aa" else str "bb",
            sniffSuffix := fun _ => str "jpg", mediaArtDirectory := str "/cache" }
          [1] (initialArtState [])).2).1 := by
  have h := claim_C3_content_addressing
    { md5Hex := fun b => if b = [1] then str "aa" else str "bb",
      sniffSuffix := fun _ => str "jpg", mediaArtDirectory := str "/cache" }
    [1] [2] [] (initialArtState []) (by decide)
    ⟨by decide, by decide, by decide⟩ ⟨by decide, by decide, by decide⟩
    (by decide) (by decide) (by decide)
  exact ⟨h.2.1 (by decide), h.2.2 (by decide) (by decide)⟩

/-! ## C9: prepared directory prefixes -/

/-- Membership in the seen-accumulator deduplication. -/
theorem mem_dedupSeen [DecidableEq α] (x : α) (l : List α) :
    ∀ (seen : List α), x ∈ dedupSeen seen l ↔ x ∈ l ∧ x ∉ seen := by
  induction l with
  | nil => intro seen; simp [dedupSeen]
  | cons y ys ih =>
    intro seen
    rw [dedupSeen]
    by_cases hy : y ∈ seen
    · rw [if_pos hy, ih seen]
      constructor
      · rintro ⟨h1, h2⟩
        exact ⟨List.mem_cons_of_mem y h1, h2⟩
      · rintro ⟨h1, h2⟩
        rcases List.mem_cons.mp h1 with rfl | h1
        · exact absurd hy h2
        · exact ⟨h1, h2⟩
    · rw [if_neg hy]
      simp only [List.mem_cons, ih (y :: seen), List.mem_cons]
      constructor
      · rintro (rfl | ⟨h1, h2⟩)
        · exact ⟨Or.inl rfl, hy⟩
        · exact ⟨Or.inr h1, fun hc => h2 (Or.inr hc)⟩
      · rintro ⟨rfl | h1, h2⟩
        · exact Or.inl rfl
        · by_cases hxy : x = y
          · exact Or.inl hxy
          · exact Or.inr ⟨h1, fun hc => hc.elim hxy h2⟩

/-- Keep-first deduplication preserves membership. -/
theorem mem_dedupKeepFirst [DecidableEq α] (x : α) (l : List α) :
    x ∈ dedupKeepFirst l ↔ x ∈ l := by
  unfold dedupKeepFirst
  rw [mem_dedupSeen]
  simp

/-- Deduplication does not change an `any` test. -/
theorem any_dedupKeepFirst [DecidableEq α] (l : List α) (f : α → Bool) :
    (dedupKeepFirst l).any f = l.any f := by
  refine Bool.eq_iff_iff.mpr ?_
  simp only [List.any_eq_true]
  constructor
  · rintro ⟨x, hx, hfx⟩
    exact ⟨x, (mem_dedupKeepFirst x l).mp hx, hfx⟩
  · rintro ⟨x, hx, hfx⟩
    exact ⟨x, (mem_dedupKeepFirst x l).mpr hx, hfx⟩

/-- The prepared form of a directory ends with a slash. -/
theorem ensureSlash_endsWith (d : Str) :
    strEndsWith (ensureSlash d) (str "/") = true := by
  unfold ensureSlash
  by_cases h : strEndsWith d (str "/") = true
  · rw [if_pos h]
    exact h
  · rw [if_neg h]
    simp [strEndsWith, strStartsWith, List.reverse_append, str_slash]

/-- A path under a sibling directory whose name extends the entry as a plain
string does not start with the slash-terminated entry. -/
theorem strStartsWith_sibling (d rest : Str) (c : Char) (hc : c ≠ '/') :
    strStartsWith (d ++ c :: rest) (d ++ ['/']) = false := by
  induction d with
  | nil => simp [strStartsWith, hc]
  | cons a t ih => simp [strStartsWith, ih]

/-- C9.  Library roots and blacklist prefixes are normalized by removing
duplicates and appending a trailing slash when missing; both the containment
loop and the blacklist test are plain prefix matches against these
slash-terminated strings, so an entry `/a/b` never matches a path under a
sibling directory `/a/bc`. -/
theorem claim_C9_prepared_dir_prefixes :
    (∀ (dirs : List Str), ∀ d ∈ prepareDirs dirs,
       strEndsWith d (str "/") = true) ∧
    (∀ (bl : List Str) (p : Str),
       isBlacklisted (prepareDirs bl) p =
         bl.any (fun d => strStartsWith p (ensureSlash d))) ∧
    (∀ (roots : List Str) (p : Str),
       (prepareDirs roots).any (fun d => strStartsWith p d) =
         roots.any (fun d => strStartsWith p (ensureSlash d))) ∧
    (∀ (d rest : Str) (c : Char), c ≠ '/' →
       strEndsWith d (str "/") = false →
       isBlacklisted (prepareDirs [d]) (d ++ c :: rest) = false ∧
       (prepareDirs [d]).any (fun dir => strStartsWith (d ++ c :: rest) dir) =
         false) := by
  have hprep : ∀ (l : List Str) (g : Str → Bool),
      (prepareDirs l).any g = l.any (fun d => g (ensureSlash d)) := by
    intro l g
    unfold prepareDirs
    rw [List.any_map, any_dedupKeepFirst]
    rfl
  refine ⟨?_, ?_, ?_, ?_⟩
  · intro dirs d hd
    unfold prepareDirs at hd
    obtain ⟨d0, -, rfl⟩ := List.mem_map.mp hd
    exact ensureSlash_endsWith d0
  · intro bl p
    exact hprep bl (fun d => strStartsWith p d)
  · intro roots p
    exact hprep roots (fun d => strStartsWith p d)
  · intro d rest c hc hns
    have hsingle : prepareDirs [d] = [ensureSlash d] := rfl
    have hes : ensureSlash d = d ++ ['/'] := by
      unfold ensureSlash
      rw [if_neg (by rw [hns]; exact Bool.false_ne_true), str_slash]
    constructor
    · unfold isBlacklisted
      rw [hsingle, hes]
      simp [strStartsWith_sibling d rest c hc]
    · rw [hsingle, hes]
      simp [strStartsWith_sibling d rest c hc]

/-- Witness for C9: the entry `/a/b` does not capture `/a/bc/s.mp3`. -/
theorem claim_C9_prepared_dir_prefixes_witness :
    isBlacklisted (prepareDirs [str "/a/b"])
      (str "/a/b" ++ 'c' :: str "/s.mp3") = false ∧
    (prepareDirs [str "/a/b"]).any
      (fun dir => strStartsWith (str "/a/b" ++ 'c' :: str "/s.mp3") dir) =
      false :=
  claim_C9_prepared_dir_prefixes.2.2.2 (str "/a/b") (str "/s.mp3") 'c'
    (by decide) (by decide)

/-! ## C4: changed files are re-extracted, re-inserted or marked for removal -/

/-- C4.  For a file present in the pre-scan index whose modification time
differs from the stored one: when its content-sniffed MIME type is no longer
supported, the walk only marks its id for deletion (rows untouched); when it
is still supported, its old rows are deleted and the freshly extracted tag
content is re-inserted under the same id, with art resolved from the fresh
embedded bytes. -/
theorem claim_C4_changed_file (env : Env) (fs : Fs) (blacklisted : List Str)
    (prefer : Bool) (files : List (Str × Int))
    (modificationTimeHash : List (Int × Int)) (mediaArtHash : List (Int × Str))
    (ws : WalkState) (e : FsEntry) (id : Int)
    (hdir : e.isDir = false) (hread : e.readable = true)
    (hfound : lookupA files e.path = some id)
    (hmod : e.modTime ≠ lookupD modificationTimeHash id 0) :
    (mimeTypesByContent.contains e.mime = false →
      processFile env fs blacklisted prefer files modificationTimeHash
          mediaArtHash ws e =
        { ws with filesToRemove := ws.filesToRemove ++ [id] }) ∧
    (mimeTypesByContent.contains e.mime = true →
      (processFile env fs blacklisted prefer files modificationTimeHash
          mediaArtHash ws e).rows =
        ws.rows.filter (fun r => r.id ≠ id) ++
          trackRows id e.modTime e.path e.tags
            (getTrackMediaArt env fs e.tags.mediaArtData e.dir
              ws.mediaArtDirectoriesHash prefer ws.art).1 ∧
      (processFile env fs blacklisted prefer files modificationTimeHash
          mediaArtHash ws e).filesToRemove = ws.filesToRemove) := by
  constructor
  · intro hmime
    have hmem : e.mime ∉ mimeTypesByContent := by simpa using hmime
    simp [processFile, hdir, hread, hfound, if_neg hmod, hmem]
  · intro hmime
    have hmem : e.mime ∈ mimeTypesByContent := by simpa using hmime
    rcases hg : getTrackMediaArt env fs e.tags.mediaArtData e.dir
      ws.mediaArtDirectoriesHash prefer ws.art with ⟨mediaArt, dirCache, a⟩
    simp [processFile, hdir, hread, hfound, if_neg hmod, hmem, hg,
      updateTrackInDatabase]

/-- Witness for C4: a concrete changed file with a still-supported MIME type
keeps the removal list unchanged (it is re-inserted, not marked). -/
theorem claim_C4_changed_file_witness :
    (processFile
        { md5Hex := fun _ => str "aa", sniffSuffix := fun _ => [],
          mediaArtDirectory := str "/cache" }
        { entries := [], dirEntries := [(str "/music", [str "song.mp3"])],
          nomediaDirs := [] }
        [] false [(str "/music/song.mp3", 0)] [(0, 5)] [(0, [])]
        { rows := [], lastId := 0, filesToRemove := [],
          noMediaDirectories := [], mediaArtDirectoriesHash := [],
          art := initialArtState [] }
        { path := str "/music/song.mp3", dir := str "/music",
          suffix := str "mp3", modTime := 9, isDir := false, readable := true,
          mime := str "audio/mpeg",
          tags := { title := str "T", artists := [str "A"], albums := [],
                    genres := [], year := 0, trackNumber := 0,
                    discNumber := [], duration := 120,
                    mediaArtData := [] } }).filesToRemove =
      ({ rows := [], lastId := 0, filesToRemove := [],
         noMediaDirectories := [], mediaArtDirectoriesHash := [],
         art := initialArtState [] } : WalkState).filesToRemove :=
  ((claim_C4_changed_file
      { md5Hex := fun _ => str "aa", sniffSuffix := fun _ => [],
        mediaArtDirectory := str "/cache" }
      { entries := [], dirEntries := [(str "/music", [str "song.mp3"])],
        nomediaDirs := [] }
      [] false [(str "/music/song.mp3", 0)] [(0, 5)] [(0, [])]
      { rows := [], lastId := 0, filesToRemove := [],
        noMediaDirectories := [], mediaArtDirectoriesHash := [],
        art := initialArtState [] }
      { path := str "/music/song.mp3", dir := str "/music",
        suffix := str "mp3", modTime := 9, isDir := false, readable := true,
        mime := str "audio/mpeg",
        tags := { title := str "T", artists := [str "A"], albums := [],
                  genres := [], year := 0, trackNumber := 0,
                  discNumber := [], duration := 120, mediaArtData := [] } }
      0 (by decide) (by decide) (by decide) (by decide)).2 (by decide)).2

/-! ## C5: unchanged-file art handling -/

/-- Counterexample to C5 as stated: an unchanged file whose stored `mediaArt`
is empty is not left untouched — when a directory image exists, the scan
re-resolves and rewrites its art column (from empty to the `cover.jpg`
path). -/
theorem claim_C5_counterexample :
    ((updateDatabase
        { md5Hex := fun _ => str "aa", sniffSuffix := fun _ => [],
          mediaArtDirectory := str "/cache/media-art" }
        { libraryDirectories := [str "/music"], blacklistedDirectories := [],
          useDirectoryMediaArt := false }
        { entries :=
            [{ path := str "/music/song.mp3", dir := str "/music",
               suffix := str "mp3", modTime := 5, isDir := false,
               readable := true, mime := str "audio/mpeg",
               tags := { title := str "T", artists := [str "A"], albums := [],
                         genres := [], year := 0, trackNumber := 0,
                         discNumber := [], duration := 120,
                         mediaArtData := [] } },
             { path := str "/music/cover.jpg", dir := str "/music",
               suffix := str "jpg", modTime := 4, isDir := false,
               readable := true, mime := str "image/jpeg",
               tags := { title := [], artists := [], albums := [],
                         genres := [], year := 0, trackNumber := 0,
                         discNumber := [], duration := 0,
                         mediaArtData := [] } }],
          dirEntries := [(str "/music", [str "cover.jpg", str "song.mp3"])],
          nomediaDirs := [] }
        { rows := trackRows 0 5 (str "/music/song.mp3")
            { title := str "T", artists := [str "A"], albums := [],
              genres := [], year := 0, trackNumber := 0, discNumber := [],
              duration := 120, mediaArtData := [] } [],
          artFiles := [] }).rows.map (·.mediaArt)) =
      [str "/music/cover.jpg"] := by
  decide

/-- C5 (amended).  For an unchanged file: stored *manual* art (under the art
cache directory but not an embedded-hash name) leaves the walk state
untouched; stored *embedded* art with directory art not preferred leaves it
untouched; but stored *empty* art is re-resolved — without re-extracting tags
(the resolution runs on empty embedded bytes) — and the row's art column is
rewritten to a newly appearing directory image; and stored *external* art
(outside the cache directory) is re-resolved from the freshly extracted
embedded bytes and rewritten exactly when the resolution differs from the
stored path. -/
theorem claim_C5_unchanged_art_amended (env : Env) (fs : Fs)
    (blacklisted : List Str) (prefer : Bool) (files : List (Str × Int))
    (modificationTimeHash : List (Int × Int)) (mediaArtHash : List (Int × Str))
    (ws : WalkState) (e : FsEntry) (id : Int) (m : Str)
    (hdir : e.isDir = false) (hread : e.readable = true)
    (hfound : lookupA files e.path = some id)
    (hmod : e.modTime = lookupD modificationTimeHash id 0)
    (hart : lookupI mediaArtHash id = some m) :
    (strStartsWith m env.mediaArtDirectory = true →
     strContains m (str "-embedded") = false →
     processFile env fs blacklisted prefer files modificationTimeHash
        mediaArtHash ws e = ws) ∧
    (strStartsWith m env.mediaArtDirectory = true →
     strContains m (str "-embedded") = true →
     prefer = false →
     processFile env fs blacklisted prefer files modificationTimeHash
        mediaArtHash ws e = ws) ∧
    (m = [] → prefer = false → env.mediaArtDirectory ≠ [] →
     ∀ name rest, lookupA ws.mediaArtDirectoriesHash e.dir = none →
     (dirEntriesOf fs e.dir).filter matchesMediaArtName = name :: rest →
     (processFile env fs blacklisted prefer files modificationTimeHash
        mediaArtHash ws e).rows =
       ws.rows.map (fun r => if r.id = id then
         { r with mediaArt := e.dir ++ str "/" ++ name } else r)) ∧
    (strStartsWith m env.mediaArtDirectory = false → m ≠ [] →
     ∀ nm dc a2, getTrackMediaArt env fs e.tags.mediaArtData e.dir
         ws.mediaArtDirectoriesHash prefer ws.art = (nm, dc, a2) →
     ((nm ≠ m →
       (processFile env fs blacklisted prefer files modificationTimeHash
          mediaArtHash ws e).rows =
         ws.rows.map (fun r => if r.id = id then { r with mediaArt := nm }
           else r)) ∧
      (nm = m →
       (processFile env fs blacklisted prefer files modificationTimeHash
          mediaArtHash ws e).rows = ws.rows))) := by
  refine ⟨?_, ?_, ?_, ?_⟩
  · intro h1 h2
    simp [processFile, hdir, hread, hfound, if_pos hmod, hart, h1, h2]
  · intro h1 h2 hp
    subst hp
    simp [processFile, hdir, hread, hfound, if_pos hmod, hart, h1, h2]
  · intro hm hp hdirne name rest hcache hfilter
    subst hm
    subst hp
    obtain ⟨c, cs, hdireq⟩ : ∃ c cs, env.mediaArtDirectory = c :: cs := by
      rcases henv : env.mediaArtDirectory with _ | ⟨c, cs⟩
      · exact absurd henv hdirne
      · exact ⟨c, cs, rfl⟩
    have hsw : strStartsWith [] env.mediaArtDirectory = false := by
      rw [hdireq]
      rfl
    have hne : e.dir ++ str "/" ++ name ≠ [] := by
      intro hc
      have hie := dirArtPath_isEmpty_false e.dir name
      rw [hc] at hie
      simp at hie
    simp [processFile, hdir, hread, hfound, if_pos hmod, hart, hsw,
      getTrackMediaArt, findMediaArtForDirectory, hcache, hfilter,
      emptyIfNull, hne, updateTrackInDatabase]
    rw [if_pos (Or.inr (Or.inl (by decide)))]
  · intro hext hm_ne nm dc a2 hg
    have hmE : m.isEmpty = false := isEmpty_false_of_ne_nil m hm_ne
    constructor
    · intro hnm
      simp [processFile, hdir, hread, hfound, if_pos hmod, hart, hext, hmE,
        hg, emptyIfNull, hnm]
    · intro hnm
      subst hnm
      simp [processFile, hdir, hread, hfound, if_pos hmod, hart, hext, hmE,
        hg, emptyIfNull]

/-- Witness for C5 (amended): a concrete unchanged file with manually
assigned art is left untouched by the walk step. -/
theorem claim_C5_unchanged_art_amended_witness :
    processFile
      { md5Hex := fun _ => str "aa", sniffSuffix := fun _ => [],
        mediaArtDirectory := str "/cache/media-art" }
      { entries := [], dirEntries := [(str "/music", [str "cover.jpg"])],
        nomediaDirs := [] }
      [] false [(str "/music/song.mp3", 0)] [(0, 5)]
      [(0, str "/cache/media-art/uuid.jpg")]
      { rows := [], lastId := 0, filesToRemove := [],
        noMediaDirectories := [], mediaArtDirectoriesHash := [],
        art := initialArtState [] }
      { path := str "/music/song.mp3", dir := str "/music",
        suffix := str "mp3", modTime := 5, isDir := false, readable := true,
        mime := str "audio/mpeg",
        tags := { title := str "T", artists := [str "A"], albums := [],
                  genres := [], year := 0, trackNumber := 0,
                  discNumber := [], duration := 120, mediaArtData := [] } } =
      { rows := [], lastId := 0, filesToRemove := [],
        noMediaDirectories := [], mediaArtDirectoriesHash := [],
        art := initialArtState [] } :=
  (claim_C5_unchanged_art_amended
    { md5Hex := fun _ => str "aa", sniffSuffix := fun _ => [],
      mediaArtDirectory := str "/cache/media-art" }
    { entries := [], dirEntries := [(str "/music", [str "cover.jpg"])],
      nomediaDirs := [] }
    [] false [(str "/music/song.mp3", 0)] [(0, 5)]
    [(0, str "/cache/media-art/uuid.jpg")]
    { rows := [], lastId := 0, filesToRemove := [],
      noMediaDirectories := [], mediaArtDirectoriesHash := [],
      art := initialArtState [] }
    { path := str "/music/song.mp3", dir := str "/music",
      suffix := str "mp3", modTime := 5, isDir := false, readable := true,
      mime := str "audio/mpeg",
      tags := { title := str "T", artists := [str "A"], albums := [],
                genres := [], year := 0, trackNumber := 0,
                discNumber := [], duration := 120, mediaArtData := [] } }
    0 (str "/cache/media-art/uuid.jpg")
    (by decide) (by decide) (by decide) (by decide) (by decide)).1
    (by decide) (by decide)

/-! ## C6: statement failures during delete + reinsert -/

/-- Counterexample to C6 as stated: for a changed file, the source deletes the
old rows first and then runs the single re-insertion statement; if the delete
succeeded and the insert fails, the prior rows are gone — they do not "keep
their prior state". -/
theorem claim_C6_counterexample :
    updateTrackInDatabaseF true false
        (trackRows 1 5 (str "/a.mp3")
          { title := str "T", artists := [str "A"], albums := [],
            genres := [], year := 0, trackNumber := 0, discNumber := [],
            duration := 120, mediaArtData := [] } [])
        true 1 9 (str "/a.mp3")
        { title := str "T2", artists := [str "A"], albums := [],
          genres := [], year := 0, trackNumber := 0, discNumber := [],
          duration := 130, mediaArtData := [] } [] = [] ∧
    trackRows 1 5 (str "/a.mp3")
        { title := str "T", artists := [str "A"], albums := [],
          genres := [], year := 0, trackNumber := 0, discNumber := [],
          duration := 120, mediaArtData := [] } [] ≠ [] := by
  decide

/-- C6 (amended).  Each single failed statement is skipped (logged) and
changes nothing by itself, and the function returns so the scan continues;
but the protection is per statement, not per file: for a changed file whose
`DELETE` succeeded and whose re-`INSERT` failed, the prior rows are removed
and nothing replaces them; the prior rows survive only when the delete failed
too, and the success path equals the plain delete-and-reinsert. -/
theorem claim_C6_statement_failures :
    ∀ (db : List Row) (id modTime : Int) (filePath : Str) (info : TagInfo)
      (mediaArt : Str) (deleteOk : Bool),
      updateTrackInDatabaseF deleteOk false db false id modTime filePath info
          mediaArt = db ∧
      updateTrackInDatabaseF false false db true id modTime filePath info
          mediaArt = db ∧
      updateTrackInDatabaseF true false db true id modTime filePath info
          mediaArt = db.filter (fun r => r.id ≠ id) ∧
      updateTrackInDatabaseF true true db true id modTime filePath info
          mediaArt =
        updateTrackInDatabase db true id modTime filePath info mediaArt := by
  intro db id modTime filePath info mediaArt deleteOk
  refine ⟨?_, ?_, ?_, ?_⟩ <;>
    simp [updateTrackInDatabaseF, updateTrackInDatabase]

/-! ## C7: reconciliation is not idempotent -/

/-- Environment of the oscillation scenario: the embedded art bytes hash to a
fixed digest but their image type cannot be sniffed (`preferredSuffix` is
empty, so `saveEmbeddedMediaArt` yields no artwork). -/
def oscillationEnv : Env :=
  { md5Hex := fun _ => str "aa"
    sniffSuffix := fun _ => []
    mediaArtDirectory := str "/cache/media-art" }

/-- Settings of the oscillation scenario: one root, no blacklist, embedded
art preferred over directory art. -/
def oscillationSettings : SettingsM :=
  { libraryDirectories := [str "/music"]
    blacklistedDirectories := []
    useDirectoryMediaArt := false }

/-- Filesystem of the oscillation scenario: `song.mp3` with non-empty
embedded art bytes next to `cover.jpg`. -/
def oscillationFs : Fs :=
  { entries :=
      [{ path := str "/music/song.mp3", dir := str "/music",
         suffix := str "mp3", modTime := 5, isDir := false, readable := true,
         mime := str "audio/mpeg",
         tags := { title := str "T", artists := [str "A"], albums := [],
                   genres := [], year := 0, trackNumber := 0,
                   discNumber := [], duration := 120,
                   mediaArtData := [1] } },
       { path := str "/music/cover.jpg", dir := str "/music",
         suffix := str "jpg", modTime := 4, isDir := false, readable := true,
         mime := str "image/jpeg",
         tags := { title := [], artists := [], albums := [], genres := [],
                   year := 0, trackNumber := 0, discNumber := [],
                   duration := 0, mediaArtData := [] } }]
    dirEntries := [(str "/music", [str "cover.jpg", str "song.mp3"])]
    nomediaDirs := [] }

/-- C7 fails on the code: starting from the index state an initial scan of
this very tree produces (stored art empty, because the embedded bytes are
unsniffable), the next scan rewrites the art column to `/music/cover.jpg`
and the scan after that rewrites it back to empty — two consecutive runs
with no filesystem or configuration change produce different index content,
and the art column oscillates forever. -/
theorem claim_C7_oscillation :
    (updateDatabase oscillationEnv oscillationSettings oscillationFs
        (updateDatabase oscillationEnv oscillationSettings oscillationFs
          { rows := [], artFiles := [] })).rows.map (·.mediaArt) =
      [str "/music/cover.jpg"] ∧
    (updateDatabase oscillationEnv oscillationSettings oscillationFs
        (updateDatabase oscillationEnv oscillationSettings oscillationFs
          (updateDatabase oscillationEnv oscillationSettings oscillationFs
            { rows := [], artFiles := [] }))).rows.map (·.mediaArt) =
      [[]] ∧
    (updateDatabase oscillationEnv oscillationSettings oscillationFs
        (updateDatabase oscillationEnv oscillationSettings oscillationFs
          (updateDatabase oscillationEnv oscillationSettings oscillationFs
            { rows := [], artFiles := [] }))).rows ≠
      (updateDatabase oscillationEnv oscillationSettings oscillationFs
        (updateDatabase oscillationEnv oscillationSettings oscillationFs
          { rows := [], artFiles := [] })).rows := by
  decide
